import Mathlib

/-!
Verification of the patient-insights core (`src/api/src/insights/buildInsights.ts`)
and its HTTP boundary (`src/api/src/handler.ts`).

The TypeScript code is duck-typed: every record is an arbitrary JSON-like value
accessed defensively with optional chaining.  We embed JSON values as the
inductive type `J` below and translate each source function over it.

Host functions of the JavaScript runtime are treated as oracle parameters of
the model, collected in `Env`:
  * `dp`     models `Date.parse : string -> number | NaN` (`none` is `NaN`);
  * `now`    models `Date.now()`;
  * `numStr` models the `String(number)` conversion.
JavaScript numbers are idealised as exact rationals (`Rat`).
-/

namespace Insights

/-- A JSON-like runtime value.  `jnull` models JavaScript `null`; an absent
value (JavaScript `undefined`) is modelled by `Option J = none` at use sites. -/
inductive J where
  | jnull : J
  | jbool (b : Bool) : J
  | jnum (q : Rat) : J
  | jstr (s : String) : J
  | jarr (xs : List J) : J
  | jobj (fields : List (String × J)) : J

/-- Oracle parameters of the JavaScript host environment. -/
structure Env where
  dp : String → Option Int
  now : Int
  numStr : Rat → String

/-- `String.prototype.trim`, modelled structurally on the character list
(kernel-computable, unlike `String.trim`). -/
def jsTrim (s : String) : String :=
  String.mk (((s.toList.dropWhile Char.isWhitespace).reverse.dropWhile
    Char.isWhitespace).reverse)

/-- `String.prototype.toLowerCase` (ASCII case mapping suffices here). -/
def jsLower (s : String) : String :=
  String.mk (s.toList.map Char.toLower)

/-- `String.prototype.toUpperCase` (ASCII case mapping suffices here). -/
def jsUpper (s : String) : String :=
  String.mk (s.toList.map Char.toUpper)

/-- Property access `x.f` on an object (first field with that name, as in a
JavaScript object, which cannot hold duplicate keys); `none` (undefined) on
non-objects. -/
def jGet (j : J) (f : String) : Option J :=
  match j with
  | .jobj fs => (fs.find? (fun kv => kv.1 == f)).map (fun kv => kv.2)
  | _ => none

/-- Optional-chained access `x?.f`. -/
def jGetO (o : Option J) (f : String) : Option J :=
  o.bind (fun j => jGet j f)

/-- Index access `x?.[i]`: array element, or single character of a string
(JavaScript string indexing), else undefined. -/
def jIdxO (o : Option J) (i : Nat) : Option J :=
  match o with
  | some (.jarr xs) => xs.get? i
  | some (.jstr s) =>
      match s.toList.get? i with
      | some c => some (.jstr (String.mk [c]))
      | none => none
  | _ => none

/-- JavaScript truthiness of a possibly-absent value. -/
def jTruthy (o : Option J) : Bool :=
  match o with
  | none => false
  | some .jnull => false
  | some (.jbool b) => b
  | some (.jnum q) => !(q == 0)
  | some (.jstr s) => !(s == "")
  | some (.jarr _) => true
  | some (.jobj _) => true

/-- Nullish coalescing `a ?? b`: `b` when `a` is absent or null. -/
def jsOr (a b : Option J) : Option J :=
  match a with
  | none => b
  | some .jnull => b
  | some v => some v

/-- The string form of a value, first component of `String.mk`-free joins:
`Array.prototype.join` renders `null` (and undefined) as the empty string. -/
def joinStrAux (sep : String) : List String → String
  | [] => ""
  | [s] => s
  | s :: rest => s ++ sep ++ joinStrAux sep rest

mutual
/-- JavaScript `String(x)` conversion (number formatting delegated to the
`numStr` oracle; objects render as `"[object Object]"`). -/
def jToString (env : Env) : J → String
  | .jnull => "null"
  | .jbool b => if b then "true" else "false"
  | .jnum q => env.numStr q
  | .jstr s => s
  | .jarr xs => joinStrAux "," (jToStringList env xs)
  | .jobj _ => "[object Object]"

def jToStringList (env : Env) : List J → List String
  | [] => []
  | x :: rest =>
      (match x with
       | .jnull => ""
       | y => jToString env y) :: jToStringList env rest
end

/-- The string content of a value when it is a string (`typeof x === "string"`). -/
def jStr? (o : Option J) : Option String :=
  match o with
  | some (.jstr s) => some s
  | _ => none

/-- Boolean infix test used throughout the classifiers:
`hay.includes(needle)` on character lists. -/
def listInfix (needle hay : List Char) : Bool :=
  match hay with
  | [] => needle.isEmpty
  | _ :: t => needle.isPrefixOf hay || listInfix needle t

/-- `hay.includes(needle)` for strings. -/
def strIncludes (hay needle : String) : Bool :=
  listInfix needle.toList hay.toList

/-- `asArray` (buildInsights.ts line 23): wrap a non-array non-nullish value
in a singleton, pass arrays through, and map nullish to `[]`. -/
def asArray (o : Option J) : List J :=
  match o with
  | some (.jarr xs) => xs
  | some .jnull => []
  | none => []
  | some v => [v]

/-- `dateValue` (lines 59-67): nullish-coalescing chain over the date
candidates `effectiveDateTime ?? effectivePeriod?.end ?? effectivePeriod?.start
?? issued ?? meta?.lastUpdated`. -/
def dateValue (r : Option J) : Option J :=
  jsOr (jGetO r "effectiveDateTime")
    (jsOr (jGetO (jGetO r "effectivePeriod") "end")
      (jsOr (jGetO (jGetO r "effectivePeriod") "start")
        (jsOr (jGetO r "issued")
          (jGetO (jGetO r "meta") "lastUpdated"))))

/-- `dateScore` (lines 69-73): `0` for falsy input, else `Date.parse` with
`NaN` mapped to `0`.  Total by construction. -/
def dateScore (env : Env) (v : Option J) : Int :=
  if !(jTruthy v) then 0
  else
    match env.dp (jToString env (v.getD .jnull)) with
    | none => 0
    | some n => n

/-- First coding with a non-blank string `display`, trimmed
(the first `for` loop of `codeLabel`, lines 78-80). -/
def firstCodingDisplay : List J → Option String
  | [] => none
  | c :: rest =>
      match jStr? (jGet c "display") with
      | some d => if jsTrim d ≠ "" then some (jsTrim d) else firstCodingDisplay rest
      | none => firstCodingDisplay rest

/-- First coding with a non-blank string `code`, trimmed
(the second `for` loop of `codeLabel`, lines 81-83). -/
def firstCodingCode : List J → Option String
  | [] => none
  | c :: rest =>
      match jStr? (jGet c "code") with
      | some d => if jsTrim d ≠ "" then some (jsTrim d) else firstCodingCode rest
      | none => firstCodingCode rest

/-- `codeLabel` (lines 75-85). -/
def codeLabel (code : Option J) (fallback : String) : String :=
  if !(jTruthy code) then fallback
  else
    let viaCoding :=
      match firstCodingDisplay (asArray (jGetO code "coding")) with
      | some d => d
      | none =>
          match firstCodingCode (asArray (jGetO code "coding")) with
          | some c => c
          | none => fallback
    match jStr? (jGetO code "text") with
    | some t => if jsTrim t ≠ "" then jsTrim t else viaCoding
    | none => viaCoding

/-- `String(x ?? "")`: the pervasive coercion pattern of the source. -/
def jsString (env : Env) (o : Option J) : String :=
  match o with
  | none => ""
  | some .jnull => ""
  | some v => jToString env v

/-- `x != null` (loose): strips both null and undefined. -/
def jNonNull (o : Option J) : Option J :=
  match o with
  | some .jnull => none
  | x => x

/-- `conditionText` (lines 87-93). -/
def conditionText (c : Option J) : String :=
  let viaCoding :=
    match firstCodingDisplay (asArray (jGetO (jGetO c "code") "coding")) with
    | some d => d
    | none => "Problem"
  match jStr? (jGetO (jGetO c "code") "text") with
  | some t => if jsTrim t ≠ "" then jsTrim t else viaCoding
  | none => viaCoding

/-- `conditionStatus` (lines 95-101). -/
def conditionStatus (env : Env) (c : Option J) : Option String :=
  let clinical :=
    jsTrim (jsString env (jGetO (jIdxO (jGetO (jGetO c "clinicalStatus") "coding") 0) "code"))
  if clinical ≠ "" then some clinical
  else
    let verification :=
      jsTrim (jsString env (jGetO (jIdxO (jGetO (jGetO c "verificationStatus") "coding") 0) "code"))
    if verification ≠ "" then some verification else none

inductive MedChange where
  | started | stopped | changed
  deriving DecidableEq, Repr

/-- `medicationChange` (lines 103-109). -/
def medicationChange (status : Option String) : Option MedChange :=
  let s := jsLower (status.getD "")
  if s == "" then none
  else if s == "stopped" || s == "completed" || s == "entered-in-error" then some .stopped
  else if s == "active" || s == "in-progress" || s == "intended" then some .started
  else none

/-- The first dosage entry: `(dosage.length > 0 ? dosage : dosageInstruction)[0]`. -/
def firstDosage (resource : Option J) : Option J :=
  let doseArr := asArray (jGetO resource "dosage")
  let instrArr := asArray (jGetO resource "dosageInstruction")
  (if doseArr.length > 0 then doseArr else instrArr).head?

/-- `` `${q.value}${unit ? ` ${unit}` : ""}` `` for a dose/rate quantity, when
`q?.value != null` (lines 119-129). -/
def quantityText (env : Env) (q : Option J) : Option String :=
  match jNonNull (jGetO q "value") with
  | some v =>
      let unit := jsOr (jGetO q "unit") (jsOr (jGetO q "code") (some (.jstr "")))
      some (jToString env v ++
        (if jTruthy unit then " " ++ jToString env (unit.getD .jnull) else ""))
  | none => none

/-- `medicationDosageText` (lines 111-132). -/
def medicationDosageText (env : Env) (resource : Option J) : Option String :=
  match firstDosage resource with
  | none => none
  | some d =>
      match jStr? (jGet d "text") with
      | some t =>
          if jsTrim t ≠ "" then some (jsTrim t)
          else
            match quantityText env (jGetO (jIdxO (jGet d "doseAndRate") 0) "doseQuantity") with
            | some s => some s
            | none => quantityText env (jGetO (jIdxO (jGet d "doseAndRate") 0) "rateQuantity")
      | none =>
          match quantityText env (jGetO (jIdxO (jGet d "doseAndRate") 0) "doseQuantity") with
          | some s => some s
          | none => quantityText env (jGetO (jIdxO (jGet d "doseAndRate") 0) "rateQuantity")

/-- `medicationPatientInstruction` (lines 134-141). -/
def medicationPatientInstruction (resource : Option J) : Option String :=
  match firstDosage resource with
  | none => none
  | some d =>
      match jStr? (jGet d "patientInstruction") with
      | some pi => if jsTrim pi ≠ "" then some (jsTrim pi) else none
      | none => none

/-- `observationValue` (lines 143-154). -/
def observationValue (env : Env) (obs : Option J) : String :=
  match quantityText env (jGetO obs "valueQuantity") with
  | some s => s
  | none =>
    match jStr? (jGetO obs "valueString") with
    | some s =>
        if jsTrim s ≠ "" then jsTrim s else observationValueRest env obs
    | none => observationValueRest env obs
where
  observationValueRest (env : Env) (obs : Option J) : String :=
    match jGetO obs "valueBoolean" with
    | some (.jbool b) => if b then "Positive" else "Negative"
    | _ =>
      if jTruthy (jGetO obs "valueCodeableConcept") then
        codeLabel (jGetO obs "valueCodeableConcept") "Result available"
      else
        match jGetO obs "valueInteger" with
        | some (.jnum q) => env.numStr q
        | _ =>
          match jStr? (jGetO obs "valueDateTime") with
          | some s => if s ≠ "" then s else "Result available"
          | none => "Result available"

/-- `hasConcreteObservationValue` (lines 156-165). -/
def hasConcreteObservationValue (obs : Option J) : Bool :=
  (jNonNull (jGetO (jGetO obs "valueQuantity") "value")).isSome ||
  (match jStr? (jGetO obs "valueString") with
   | some s => (jsTrim s).length > 0
   | none => false) ||
  (match jGetO obs "valueBoolean" with
   | some (.jbool _) => true
   | _ => false) ||
  (jNonNull (jGetO obs "valueCodeableConcept")).isSome ||
  (match jGetO obs "valueInteger" with
   | some (.jnum _) => true
   | _ => false) ||
  (match jStr? (jGetO obs "valueDateTime") with
   | some s => s.length > 0
   | none => false)

inductive ObsFlag where
  | H | L | A | critical
  deriving DecidableEq, Repr

/-- The interpretation code `String(obs?.interpretation?.[0]?.coding?.[0]?.code
?? "").toUpperCase()` shared by `observationFlag` and `observationAbnormalLabel`. -/
def interpCode (env : Env) (obs : Option J) : String :=
  jsUpper (jsString env
    (jGetO (jIdxO (jGetO (jIdxO (jGetO obs "interpretation") 0) "coding") 0) "code"))

/-- `observationFlag` (lines 167-175). -/
def observationFlag (env : Env) (obs : Option J) : Option ObsFlag :=
  let code := interpCode env obs
  if code == "" then none
  else if code == "H" || code == "HH" || code == "HX" then some .H
  else if code == "L" || code == "LL" || code == "LX" then some .L
  else if code == "A" || code == "ABN" then some .A
  else if code == "CRIT" || code == "AA" then some .critical
  else none

/-- The regex split `^([^/]+)\/(.+)$`: text before the first slash (non-empty)
and everything after it (non-empty). -/
def splitRef (s : String) : Option (String × String) :=
  let cs := s.toList
  let pre := cs.takeWhile (fun c => c ≠ '/')
  match cs.drop pre.length with
  | '/' :: tail =>
      if pre.isEmpty || tail.isEmpty then none
      else some (String.mk pre, String.mk tail)
  | _ => none

/-- `refId` (lines 177-183). -/
def refId (reference : Option J) (expectedType : Option String) : Option String :=
  match jStr? reference with
  | none => none
  | some s =>
      if s == "" then none
      else
        match splitRef s with
        | none => none
        | some (t, i) =>
            if (match expectedType with
                | some et => et ≠ "" && t ≠ et
                | none => false) then none
            else some i

/-- `isLabObservation` (lines 185-194). -/
def isLabObservation (env : Env) (obs : Option J) : Bool :=
  (asArray (jGetO obs "category")).any (fun cat =>
    ((asArray (jGet cat "coding")).any (fun coding =>
        jsLower (jsString env (jGet coding "code")) == "laboratory")) ||
    strIncludes (jsLower (jsString env (jGet cat "text"))) "lab")

/-- `isSocialObservation` (lines 196-211). -/
def isSocialObservation (env : Env) (obs : Option J) : Bool :=
  (asArray (jGetO obs "category")).any (fun cat =>
    ((asArray (jGet cat "coding")).any (fun coding =>
        jsLower (jsString env (jGet coding "code")) == "social-history")) ||
    strIncludes (jsLower (jsString env (jGet cat "text"))) "social") ||
  (let codeText := jsLower (jsString env (jGetO (jGetO obs "code") "text"))
   strIncludes codeText "smok" || strIncludes codeText "tobacco" ||
     strIncludes codeText "alcohol") ||
  (asArray (jGetO (jGetO obs "code") "coding")).any (fun coding =>
    let display := jsLower (jsString env (jGet coding "display"))
    strIncludes display "smok" || strIncludes display "tobacco" ||
      strIncludes display "alcohol")

/-- `isPhq9Observation` (lines 232-242). -/
def isPhq9Observation (env : Env) (obs : Option J) : Bool :=
  (let codeText := jsLower (jsString env (jGetO (jGetO obs "code") "text"))
   strIncludes codeText "phq-9" || strIncludes codeText "phq 9") ||
  (asArray (jGetO (jGetO obs "code") "coding")).any (fun coding =>
    jsTrim (jsString env (jGet coding "code")) == "44261-6" ||
    (let display := jsLower (jsString env (jGet coding "display"))
     strIncludes display "phq-9" || strIncludes display "phq 9"))

/-- `isMentalObservation` (lines 213-230). -/
def isMentalObservation (env : Env) (obs : Option J) : Bool :=
  isPhq9Observation env obs ||
  (asArray (jGetO obs "category")).any (fun cat =>
    strIncludes (jsLower (jsString env (jGet cat "text"))) "mental" ||
    (asArray (jGet cat "coding")).any (fun coding =>
      jsLower (jsString env (jGet coding "code")) == "survey")) ||
  (let codeText := jsLower (jsString env (jGetO (jGetO obs "code") "text"))
   strIncludes codeText "mental" || strIncludes codeText "depression" ||
     strIncludes codeText "anxiety") ||
  (asArray (jGetO (jGetO obs "code") "coding")).any (fun coding =>
    let display := jsLower (jsString env (jGet coding "display"))
    strIncludes display "mental" || strIncludes display "depression" ||
      strIncludes display "anxiety")

/-- `VITAL_LOINC_CODES` (lines 244-258). -/
def VITAL_LOINC_CODES : List String :=
  ["85354-9", "8480-6", "8462-4", "8867-4", "8310-5", "9279-1", "59408-5",
   "2708-6", "29463-7", "3141-9", "8302-2", "8306-3", "39156-5"]

/-- `isVitalObservation` (lines 260-308). -/
def isVitalObservation (env : Env) (obs : Option J) : Bool :=
  (asArray (jGetO obs "category")).any (fun cat =>
    ((asArray (jGet cat "coding")).any (fun coding =>
        let code := jsLower (jsString env (jGet coding "code"))
        code == "vital-signs" || code == "vitals")) ||
    strIncludes (jsLower (jsString env (jGet cat "text"))) "vital") ||
  (asArray (jGetO (jGetO obs "code") "coding")).any (fun coding =>
    let c := jsString env (jGet coding "code")
    let d := jsLower (jsString env (jGet coding "display"))
    VITAL_LOINC_CODES.contains c ||
    strIncludes d "blood pressure" || strIncludes d "bp systolic" ||
    strIncludes d "bp diastolic" || strIncludes d "heart rate" ||
    strIncludes d "body temperature" || strIncludes d "respiratory rate" ||
    strIncludes d "oxygen saturation" || d == "weight" || d == "height" ||
    strIncludes d "body mass index" || strIncludes d "bmi") ||
  (let text := jsLower (jsString env (jGetO (jGetO obs "code") "text"))
   strIncludes text "blood pressure" || strIncludes text "heart rate" ||
   strIncludes text "temperature" || strIncludes text "respiratory rate" ||
   strIncludes text "oxygen saturation" || text == "weight" || text == "height" ||
   strIncludes text "body mass index" || strIncludes text "bmi")

/-- Decimal digits to a natural number. -/
def digitsToNat (ds : List Char) : Nat :=
  ds.foldl (fun n c => 10 * n + (c.toNat - ('0').toNat)) 0

/-- Try to match `\d+(\.\d+)?` at the start of `cs`; JavaScript `Number` on the
matched substring is exact on such plain decimals (idealised as a rational). -/
def parseUnsignedNum (cs : List Char) : Option Rat :=
  let ds := cs.takeWhile Char.isDigit
  if ds.isEmpty then none
  else
    let ip : Rat := (digitsToNat ds : Nat)
    match cs.drop ds.length with
    | '.' :: r2 =>
        let fs := r2.takeWhile Char.isDigit
        if fs.isEmpty then some ip
        else some (ip + (digitsToNat fs : Rat) / ((10 : Rat) ^ fs.length))
    | _ => some ip

/-- Try to match `-?\d+(\.\d+)?` at the start of `cs`. -/
def tryNumAt (cs : List Char) : Option Rat :=
  match cs with
  | '-' :: rest => (parseUnsignedNum rest).map (fun q => -q)
  | _ => parseUnsignedNum cs

/-- Regex scan: first position where `-?\d+(\.\d+)?` matches. -/
def scanNum : List Char → Option Rat
  | [] => none
  | c :: rest =>
      match tryNumAt (c :: rest) with
      | some q => some q
      | none => scanNum rest

/-- `numericFromValue` (lines 310-316): first signed decimal substring of a
value string, `undefined` if none (and for the falsy empty string). -/
def numericFromValue (value : String) : Option Rat :=
  if value == "" then none else scanNum value.toList

/-- `CHRONIC_PROBLEM_TERMS` (lines 318-332). -/
def CHRONIC_PROBLEM_TERMS : List String :=
  ["chronic", "diabetes", "hypertension", "heart failure", "copd", "asthma",
   "chronic kidney", "ckd", "end-stage renal", "esrd", "atrial fibrillation",
   "coronary artery disease", "cad"]

/-- `CHRONIC_MED_TERMS` (lines 334-357). -/
def CHRONIC_MED_TERMS : List String :=
  ["insulin", "metformin", "glipizide", "atorvastatin", "rosuvastatin",
   "simvastatin", "lisinopril", "losartan", "amlodipine", "metoprolol",
   "carvedilol", "furosemide", "spironolactone", "warfarin", "apixaban",
   "rivaroxaban", "levothyroxine", "tiotropium", "albuterol", "fluticasone",
   "sertraline", "escitalopram"]

/-- `containsAnyTerm` (lines 359-363). -/
def containsAnyTerm (env : Env) (text : Option J) (terms : List String) : Bool :=
  let t := jsLower (jsString env text)
  if t == "" then false else terms.any (fun term => strIncludes t term)

/-- `isChronicProblemResource` (lines 365-372). -/
def isChronicProblemResource (env : Env) (condition : Option J) : Bool :=
  if !(jTruthy condition) then false
  else if !(jStr? (jGetO condition "resourceType") == some "Condition") then false
  else
    containsAnyTerm env (jGetO (jGetO condition "code") "text") CHRONIC_PROBLEM_TERMS ||
    (asArray (jGetO (jGetO condition "code") "coding")).any (fun coding =>
      containsAnyTerm env (jGet coding "display") CHRONIC_PROBLEM_TERMS)

/-- `isChronicMedicationResource` (lines 374-385). -/
def isChronicMedicationResource (env : Env) (resource medRef : Option J) : Bool :=
  if !(jTruthy resource) then false
  else
    containsAnyTerm env (jGetO (jGetO resource "medicationCodeableConcept") "text")
      CHRONIC_MED_TERMS ||
    (asArray (jGetO (jGetO resource "medicationCodeableConcept") "coding")).any
      (fun coding => containsAnyTerm env (jGet coding "display") CHRONIC_MED_TERMS) ||
    containsAnyTerm env (jGetO (jGetO medRef "code") "text") CHRONIC_MED_TERMS ||
    (asArray (jGetO (jGetO medRef "code") "coding")).any (fun coding =>
      containsAnyTerm env (jGet coding "display") CHRONIC_MED_TERMS)

/-- `observationStatus` (lines 387-390). -/
def observationStatus (env : Env) (obs : Option J) : Option String :=
  let s := jsTrim (jsString env (jGetO obs "status"))
  if s ≠ "" then some s else none

inductive AbnLabel where
  | High | Low | Abnormal | Critical
  deriving DecidableEq, Repr

/-- JavaScript `Number(x)` coercion to an (idealised exact) rational; `none`
is `NaN`.  Exponent, hex and `Infinity` string forms are not modelled — no
claim depends on them. -/
def strictNum (s : String) : Option Rat :=
  let t := jsTrim s
  if t == "" then some 0
  else
    let core := fun (cs : List Char) =>
      let ds := cs.takeWhile Char.isDigit
      match cs.drop ds.length with
      | [] => if ds.isEmpty then none else some ((digitsToNat ds : Nat) : Rat)
      | '.' :: r2 =>
          let fs := r2.takeWhile Char.isDigit
          if r2.drop fs.length ≠ [] then none
          else if ds.isEmpty && fs.isEmpty then none
          else some ((digitsToNat ds : Nat) +
            (digitsToNat fs : Nat) / ((10 : Rat) ^ fs.length))
      | _ => none
    match t.toList with
    | '-' :: rest => (core rest).map (fun q => -q)
    | '+' :: rest => core rest
    | cs => core cs

/-- `Number(x)` on a possibly-absent value. -/
def jToNumber (env : Env) (o : Option J) : Option Rat :=
  match o with
  | none => none
  | some .jnull => some 0
  | some (.jbool b) => some (if b then 1 else 0)
  | some (.jnum q) => some q
  | some (.jstr s) => strictNum s
  | some (.jarr xs) => strictNum (jToString env (.jarr xs))
  | some (.jobj _) => none

/-- `observationAbnormalLabel` (lines 392-405). -/
def observationAbnormalLabel (env : Env) (obs : Option J) : Option AbnLabel :=
  let interp := interpCode env obs
  if interp == "H" || interp == "HH" || interp == "HX" then some .High
  else if interp == "L" || interp == "LL" || interp == "LX" then some .Low
  else if interp == "A" || interp == "ABN" then some .Abnormal
  else if interp == "CRIT" || interp == "AA" then some .Critical
  else
    let value := jToNumber env (jGetO (jGetO obs "valueQuantity") "value")
    let low := jToNumber env (jGetO (jGetO (jIdxO (jGetO obs "referenceRange") 0) "low") "value")
    let high := jToNumber env (jGetO (jGetO (jIdxO (jGetO obs "referenceRange") 0) "high") "value")
    match value, low, high with
    | some v, some lo, _ =>
        if v < lo then some .Low
        else
          match high with
          | some hi => if v > hi then some .High else none
          | none => none
    | some v, none, some hi => if v > hi then some .High else none
    | _, _, _ => none

/-- `encounterClassCode` (lines 407-409). -/
def encounterClassCode (env : Env) (e : Option J) : String :=
  jsUpper (jsTrim (jsString env (jsOr (jGetO (jGetO e "class") "code")
      (jGetO (jGetO e "class") "display"))))

/-- `daysAgo` (lines 411-413), relative to the `now` oracle. -/
def daysAgo (env : Env) (days : Int) : Int :=
  env.now - days * 24 * 60 * 60 * 1000

/-- Stable insertion step for the descending sort: `x` passes over elements
with a strictly greater key and lands before the first element whose key is
less than or equal, matching a stable JavaScript `sort((a, b) => key(b) - key(a))`. -/
def insertByDesc (key : α → Int) (x : α) : List α → List α
  | [] => [x]
  | y :: ys => if key x < key y then y :: insertByDesc key x ys else x :: y :: ys

/-- Stable descending sort by an integral key, the model of
`.sort((a, b) => dateScore(b.at) - dateScore(a.at))`. -/
def sortByDesc (key : α → Int) : List α → List α
  | [] => []
  | x :: xs => insertByDesc key x (sortByDesc key xs)

/-- Strict string comparison `x === "s"` on a possibly-absent value. -/
def jIsStr (o : Option J) (s : String) : Bool :=
  match o with
  | some (.jstr t) => t == s
  | _ => false

/-- `String(x)` where `x` may be absent (JavaScript renders `undefined`). -/
def jsStringRaw (env : Env) (o : Option J) : String :=
  match o with
  | none => "undefined"
  | some v => jToString env v

/-- `EvidenceRef` (line 1).  The `path` member is declared in the source type
but never assigned. -/
structure EvidenceRef where
  resourceType : String
  id : String
  path : Option String := none
  deriving DecidableEq, Repr

inductive Severity where
  | critical | high | medium | info
  deriving DecidableEq, Repr

/-- Identifies which of the six banner rules (push sites, lines 887-954)
produced a banner.  The TypeScript banner object carries no such tag; it is a
ghost field added so rule identity can be stated, and it does not affect any
other field. -/
inductive BannerRule where
  | abnormalLabs | abnormalVitals | severeAllergies
  | acuteUtilization | nonFinalResults | chronicBurden
  deriving DecidableEq, Repr

def BannerRule.idx : BannerRule → Nat
  | .abnormalLabs => 0
  | .abnormalVitals => 1
  | .severeAllergies => 2
  | .acuteUtilization => 3
  | .nonFinalResults => 4
  | .chronicBurden => 5

structure Banner where
  rule : BannerRule
  severity : Severity
  title : String
  detail : Option String
  occurredAt : Option J
  evidence : List EvidenceRef

/-- `node` is collected as a record: string-typed `resourceType` and `id`
(line 40). -/
def isRecordNode (j : J) : Bool :=
  (jStr? (jGet j "resourceType")).isSome && (jStr? (jGet j "id")).isSome

mutual
/-- A structural (kernel-computable) size of a value, used as the walk's
recursion-depth budget. -/
def jSize : J → Nat
  | .jarr xs => 1 + jSizeL xs
  | .jobj fs => 1 + jSizeF fs
  | _ => 1

def jSizeL : List J → Nat
  | [] => 0
  | x :: rest => jSize x + jSizeL rest

def jSizeF : List (String × J) → Nat
  | [] => 0
  | kv :: rest => jSize kv.2 + jSizeF rest
end

theorem one_le_jSize (j : J) : 1 ≤ jSize j := by
  cases j <;> simp [jSize] <;> omega

theorem jSize_le_jSizeL {xs : List J} {x : J} (h : x ∈ xs) : jSize x ≤ jSizeL xs := by
  induction xs with
  | nil => cases h
  | cons a as ih =>
      cases h with
      | head => simp [jSizeL]
      | tail _ hm =>
          have := ih hm
          simp only [jSizeL]
          omega

theorem jSize_mem_arr {xs : List J} {x : J} (h : x ∈ xs) :
    jSize x < jSize (J.jarr xs) := by
  have := jSize_le_jSizeL h
  simp only [jSize]
  omega

theorem jSize_le_jSizeF {fs : List (String × J)} {kv : String × J} (h : kv ∈ fs) :
    jSize kv.2 ≤ jSizeF fs := by
  induction fs with
  | nil => cases h
  | cons a as ih =>
      cases h with
      | head => simp [jSizeF]
      | tail _ hm =>
          have := ih hm
          simp only [jSizeF]
          omega

theorem jSize_mem_fields {fs : List (String × J)} {kv : String × J} (h : kv ∈ fs) :
    jSize kv.2 < jSize (J.jobj fs) := by
  have := jSize_le_jSizeF h
  simp only [jSize]
  omega

theorem jSize_jGet_lt {fs : List (String × J)} {f : String} {v : J}
    (h : jGet (.jobj fs) f = some v) : jSize v < jSize (J.jobj fs) := by
  simp only [jGet] at h
  cases hf : List.find? (fun kv => kv.1 == f) fs with
  | none => rw [hf] at h; exact Option.noConfusion h
  | some kv =>
      rw [hf] at h
      have hv : kv.2 = v := Option.some.inj h
      subst hv
      have hmem := List.mem_of_find?_eq_some hf
      exact jSize_mem_fields hmem

/-- `value && typeof value === "object"`: true exactly for objects and arrays. -/
def isContainer : J → Bool
  | .jobj _ => true
  | .jarr _ => true
  | _ => false

/-- The record-extraction walk of `extractResources` (lines 27-57), on tree
inputs, with a recursion-depth budget: at each node, a record node (string
`resourceType` and `id`) is collected and its descendants are not walked; a
node with an object-valued `resource` field walks only that child; otherwise
all object/array children are walked in order.  The source keeps a
reference-identity `seen` set; inputs produced by `JSON.parse` (the only
route into `buildInsights` in this system) are trees in which no reference
occurs twice, so on them the `seen` test never fires.  (The
identity-sensitive walk is modelled separately on an explicit heap, namespace
`Extract`.)  `jSize` strictly decreases from a node to any descendant, so a
budget of `jSize input` never runs out: see `treeWalkF_fuel_irrelevant`. -/
def treeWalkF : Nat → J → List J
  | 0, _ => []
  | fuel + 1, j =>
      match j with
      | .jarr xs => xs.flatMap (fun x => treeWalkF fuel x)
      | .jobj fs =>
          if isRecordNode (.jobj fs) then [.jobj fs]
          else
            match jGet (.jobj fs) "resource" with
            | some r =>
                if isContainer r then treeWalkF fuel r
                else
                  fs.flatMap (fun kv =>
                    if isContainer kv.2 then treeWalkF fuel kv.2 else [])
            | none =>
                fs.flatMap (fun kv =>
                  if isContainer kv.2 then treeWalkF fuel kv.2 else [])
      | _ => []

theorem flatMap_congr_mem {f g : α → List β} {l : List α}
    (h : ∀ x ∈ l, f x = g x) : l.flatMap f = l.flatMap g := by
  induction l with
  | nil => rfl
  | cons a as ih =>
      simp only [List.flatMap_cons]
      rw [h a (List.mem_cons_self a as), ih (fun x hx => h x (List.mem_cons_of_mem a hx))]

/-- Any budget of at least `jSize j` computes the same walk: the budget
never runs out, so `treeWalkF (jSize j) j` models the source's unbounded
recursion. -/
theorem treeWalkF_fuel_irrelevant :
    ∀ (f1 : Nat), ∀ (f2 : Nat) (j : J), jSize j ≤ f1 → jSize j ≤ f2 →
      treeWalkF f1 j = treeWalkF f2 j := by
  intro f1
  induction f1 with
  | zero =>
      intro f2 j h1 _
      have := one_le_jSize j
      omega
  | succ n1 ih =>
      intro f2 j h1 h2
      have hj1 := one_le_jSize j
      cases f2 with
      | zero => omega
      | succ n2 =>
          cases j with
          | jnull => rfl
          | jbool b => rfl
          | jnum q => rfl
          | jstr s => rfl
          | jarr xs =>
              simp only [treeWalkF]
              refine flatMap_congr_mem (fun x hx => ?_)
              have hlt := jSize_mem_arr hx
              have hs : jSize (J.jarr xs) = 1 + jSizeL xs := rfl
              exact ih n2 x (by omega) (by omega)
          | jobj fs =>
              simp only [treeWalkF]
              by_cases hrec : isRecordNode (.jobj fs) = true
              · rw [hrec]
                simp
              · have hrec' : isRecordNode (.jobj fs) = false := by simpa using hrec
                rw [hrec']
                simp only [Bool.false_eq_true, if_false]
                cases hres : jGet (.jobj fs) "resource" with
                | none =>
                    refine flatMap_congr_mem (fun kv hkv => ?_)
                    have hlt := jSize_mem_fields hkv
                    by_cases hc : isContainer kv.2 = true
                    · rw [hc]
                      simp only [if_true]
                      exact ih n2 kv.2 (by omega) (by omega)
                    · have hc' : isContainer kv.2 = false := by simpa using hc
                      rw [hc']
                      simp
                | some r =>
                    dsimp only
                    have hlt := jSize_jGet_lt hres
                    by_cases hc : isContainer r = true
                    · rw [hc]
                      simp only [if_true]
                      exact ih n2 r (by omega) (by omega)
                    · have hc' : isContainer r = false := by simpa using hc
                      rw [hc']
                      simp only [Bool.false_eq_true, if_false]
                      refine flatMap_congr_mem (fun kv hkv => ?_)
                      have hlt2 := jSize_mem_fields hkv
                      by_cases hck : isContainer kv.2 = true
                      · rw [hck]
                        simp only [if_true]
                        exact ih n2 kv.2 (by omega) (by omega)
                      · have hck' : isContainer kv.2 = false := by simpa using hck
                        rw [hck']
                        simp

/-- `extractResources` on tree-shaped input. -/
def extractResourcesTree (input : J) : List J :=
  treeWalkF (jSize input) input

/-- Assignment `m[k] = v` on a JavaScript object modelled as an ordered
association list: overwriting an existing key keeps its position. -/
def upsert (m : List (String × J)) (k : String) (v : J) : List (String × J) :=
  if m.any (fun kv => kv.1 == k) then
    m.map (fun kv => if kv.1 == k then (k, v) else kv)
  else m ++ [(k, v)]

/-- `resources[key]`. -/
def mlookup (m : List (String × J)) (k : String) : Option J :=
  (m.find? (fun kv => kv.1 == k)).map (fun kv => kv.2)

/-- `Object.values(resources)` (insertion order). -/
def valuesOf (m : List (String × J)) : List J :=
  m.map (fun kv => kv.2)

/-- `bundle.entry` when it is an array, else `[]` (line 416). -/
def entriesOf (bundle : J) : List J :=
  match jGet bundle "entry" with
  | some (.jarr xs) => xs
  | _ => []

/-- One step of the record-map build (lines 423-424): insert a record with
truthy `resourceType` and `id` under its `` `${r.resourceType}/${r.id}` ``
key. -/
def resourceInsertStep (env : Env) (m : List (String × J)) (r : J) : List (String × J) :=
  if jTruthy (jGet r "resourceType") && jTruthy (jGet r "id") then
    upsert m
      (jsStringRaw env (jGet r "resourceType") ++ "/" ++ jsStringRaw env (jGet r "id")) r
  else m

/-- The record map (lines 416-425): extract from `entry` when non-empty, else
from the whole bundle; keep records with truthy `resourceType` and `id`,
keyed `` `${r.resourceType}/${r.id}` ``, last write wins. -/
def resourcesOf (env : Env) (bundle : J) : List (String × J) :=
  let entries := entriesOf bundle
  let extracted := extractResourcesTree (if entries.length > 0 then .jarr entries else bundle)
  extracted.foldl (resourceInsertStep env) []

/-- The string id of a record (the map only ever holds records whose `id` is
a string). -/
def evidId (r : J) : String :=
  (jStr? (jGet r "id")).getD ""

/-- The string `resourceType` of a record. -/
def evidType (r : J) : String :=
  (jStr? (jGet r "resourceType")).getD ""

structure Patient where
  id : J
  name : String
  dob : Option J
  sex : Option J
  identifiers : List (Option J × Option J)

/-- `patient` (lines 427-441). -/
def patientOf (env : Env) (m : List (String × J)) : Patient :=
  let patientRes := (valuesOf m).find? (fun r => jIsStr (jGet r "resourceType") "Patient")
  let name0 := jIdxO (jGetO patientRes "name") 0
  let name :=
    if jTruthy name0 then
      let given :=
        match jGetO name0 "given" with
        | some (.jarr xs) => joinStrAux " " (jToStringList env xs)
        | _ => ""
      let family := jsString env (jGetO name0 "family")
      jsTrim (given ++ " " ++ family)
    else "Unknown Patient"
  { id := (jsOr (jGetO patientRes "id") (some (.jstr "unknown"))).getD (.jstr "unknown"),
    name := name,
    dob := jGetO patientRes "birthDate",
    sex := jGetO patientRes "gender",
    identifiers :=
      match jGetO patientRes "identifier" with
      | some (.jarr xs) => xs.map (fun i => (jGet i "system", jGet i "value"))
      | _ => [] }

structure ProblemPre where
  text : String
  status : Option String
  onset : Option J
  atv : Option J
  evidence : List EvidenceRef

structure ProblemRow where
  text : String
  status : Option String
  onset : Option J
  evidence : List EvidenceRef

/-- `problems` before the final projection (lines 443-456): one row per
`Condition` with a truthy id, sorted by descending date score of the `at`
candidate chain. -/
def problemsPre (env : Env) (m : List (String × J)) : List ProblemPre :=
  sortByDesc (fun p => dateScore env p.atv)
    ((valuesOf m).flatMap (fun resource =>
      if !(jIsStr (jGet resource "resourceType") "Condition") ||
          !(jTruthy (jGet resource "id")) then []
      else
        [{ text := conditionText (some resource),
           status := conditionStatus env (some resource),
           onset := jsOr (jGet resource "onsetDateTime")
             (jsOr (jGet resource "recordedDate") (jGet resource "abatementDateTime")),
           atv := jsOr (jGet resource "onsetDateTime")
             (jsOr (jGet resource "recordedDate")
               (jGetO (jGet resource "meta") "lastUpdated")),
           evidence := [{ resourceType := "Condition", id := evidId resource }] }]))

/-- `problems` (line 457): drop the sort key. -/
def problemsOf (env : Env) (m : List (String × J)) : List ProblemRow :=
  (problemsPre env m).map (fun p =>
    { text := p.text, status := p.status, onset := p.onset, evidence := p.evidence })

structure ProcedureRow where
  text : String
  status : Option String
  atv : Option J
  evidence : List EvidenceRef

/-- `procedures` (lines 459-477); the final `.map` is the identity projection. -/
def proceduresOf (env : Env) (m : List (String × J)) : List ProcedureRow :=
  sortByDesc (fun p => dateScore env p.atv)
    ((valuesOf m).flatMap (fun resource =>
      if !(jIsStr (jGet resource "resourceType") "Procedure") ||
          !(jTruthy (jGet resource "id")) then []
      else
        [{ text := codeLabel (jGet resource "code") "Procedure",
           status := jStr? (jGet resource "status"),
           atv := jsOr (jGet resource "performedDateTime")
             (jsOr (jGetO (jGet resource "performedPeriod") "end")
               (jsOr (jGetO (jGet resource "performedPeriod") "start")
                 (jGetO (jGet resource "meta") "lastUpdated"))),
           evidence := [{ resourceType := "Procedure", id := evidId resource }] }]))

structure MedPre where
  text : String
  dosage : Option String
  patientInstruction : Option String
  status : Option String
  changed : Option MedChange
  atv : Option J
  evidence : List EvidenceRef

structure MedRow where
  text : String
  dosage : Option String
  patientInstruction : Option String
  status : Option String
  changed : Option MedChange
  evidence : List EvidenceRef

/-- `meds` before deduplication (lines 479-515), sorted.  The `text`
resolution chain `codeLabel(..., "") || codeLabel(..., "") ||
medicationReference?.display || "Medication"` stringifies the raw `display`
value in this model. -/
def medsPre (env : Env) (m : List (String × J)) : List MedPre :=
  sortByDesc (fun p => dateScore env p.atv)
    ((valuesOf m).flatMap (fun resource =>
      if !(jTruthy (jGet resource "resourceType")) || !(jTruthy (jGet resource "id")) then []
      else if !(jIsStr (jGet resource "resourceType") "MedicationStatement") &&
          !(jIsStr (jGet resource "resourceType") "MedicationRequest") then []
      else
        let medRefId := refId (jGetO (jGet resource "medicationReference") "reference")
          (some "Medication")
        let medRef := match medRefId with
          | some i => mlookup m ("Medication/" ++ i)
          | none => none
        let cl1 := codeLabel (jGet resource "medicationCodeableConcept") ""
        let cl2 := codeLabel (jGetO medRef "code") ""
        let disp := jGetO (jGet resource "medicationReference") "display"
        let text :=
          if cl1 ≠ "" then cl1
          else if cl2 ≠ "" then cl2
          else if jTruthy disp then jsStringRaw env disp
          else "Medication"
        let status := jStr? (jGet resource "status")
        [{ text := text,
           dosage := medicationDosageText env (some resource),
           patientInstruction := medicationPatientInstruction (some resource),
           status := status,
           changed := medicationChange status,
           atv := jsOr (jGet resource "effectiveDateTime")
             (jsOr (jGetO (jGet resource "effectivePeriod") "start")
               (jsOr (jGetO (jGet resource "effectivePeriod") "end")
                 (jsOr (jGet resource "dateAsserted")
                   (jsOr (jGet resource "authoredOn")
                     (jGetO (jGet resource "meta") "lastUpdated"))))),
           evidence := [{ resourceType := evidType resource, id := evidId resource }] }]))

/-- The medication dedup `reduce` (lines 516-520): skip a row whose
`(text, dosage, patientInstruction)` already occurred, else append its
projection. -/
def medsDedup (rows : List MedPre) : List MedRow :=
  rows.foldl (fun acc med =>
    if acc.any (fun mr => mr.text == med.text && mr.dosage == med.dosage &&
        mr.patientInstruction == med.patientInstruction) then acc
    else acc ++ [{ text := med.text, dosage := med.dosage,
                   patientInstruction := med.patientInstruction, status := med.status,
                   changed := med.changed, evidence := med.evidence }]) []

/-- `meds` (lines 479-520). -/
def medsOf (env : Env) (m : List (String × J)) : List MedRow :=
  medsDedup (medsPre env m)

structure AllergyPre where
  text : String
  criticality : Option String
  atv : Option J
  evidence : List EvidenceRef

structure AllergyRow where
  text : String
  criticality : Option String
  evidence : List EvidenceRef

/-- `allergies` before the final projection (lines 522-539). -/
def allergiesPre (env : Env) (m : List (String × J)) : List AllergyPre :=
  sortByDesc (fun p => dateScore env p.atv)
    ((valuesOf m).flatMap (fun resource =>
      if !(jIsStr (jGet resource "resourceType") "AllergyIntolerance") ||
          !(jTruthy (jGet resource "id")) then []
      else
        [{ text := codeLabel (jGet resource "code") "Allergy",
           criticality :=
             match jStr? (jGet resource "criticality") with
             | some c => some c
             | none => jStr? (jGetO (jIdxO (jGet resource "reaction") 0) "severity"),
           atv := jsOr (jGet resource "onsetDateTime")
             (jsOr (jGet resource "recordedDate")
               (jGetO (jGet resource "meta") "lastUpdated")),
           evidence := [{ resourceType := "AllergyIntolerance", id := evidId resource }] }]))

/-- `allergies` (line 540). -/
def allergiesOf (env : Env) (m : List (String × J)) : List AllergyRow :=
  (allergiesPre env m).map (fun p =>
    { text := p.text, criticality := p.criticality, evidence := p.evidence })

structure ObsSummaryRow where
  label : String
  latest : String
  atv : Option J
  evidence : List EvidenceRef

/-- `socialHistory` (lines 542-555); the final `.map` is the identity. -/
def socialHistoryOf (env : Env) (m : List (String × J)) : List ObsSummaryRow :=
  sortByDesc (fun p => dateScore env p.atv)
    ((valuesOf m).flatMap (fun resource =>
      if !(jIsStr (jGet resource "resourceType") "Observation") ||
          !(jTruthy (jGet resource "id")) ||
          !(isSocialObservation env (some resource)) then []
      else
        [{ label := codeLabel (jGet resource "code") "Social history",
           latest := observationValue env (some resource),
           atv := dateValue (some resource),
           evidence := [{ resourceType := "Observation", id := evidId resource }] }]))

/-- `mentalStatus` (lines 557-570). -/
def mentalStatusOf (env : Env) (m : List (String × J)) : List ObsSummaryRow :=
  sortByDesc (fun p => dateScore env p.atv)
    ((valuesOf m).flatMap (fun resource =>
      if !(jIsStr (jGet resource "resourceType") "Observation") ||
          !(jTruthy (jGet resource "id")) ||
          !(isMentalObservation env (some resource)) then []
      else
        [{ label := codeLabel (jGet resource "code") "Mental status",
           latest := observationValue env (some resource),
           atv := dateValue (some resource),
           evidence := [{ resourceType := "Observation", id := evidId resource }] }]))

structure ImmunizationRow where
  vaccine : String
  status : Option String
  atv : Option J
  evidence : List EvidenceRef

/-- `immunizations` (lines 572-589); the final `.map` is the identity. -/
def immunizationsOf (env : Env) (m : List (String × J)) : List ImmunizationRow :=
  sortByDesc (fun p => dateScore env p.atv)
    ((valuesOf m).flatMap (fun resource =>
      if !(jIsStr (jGet resource "resourceType") "Immunization") ||
          !(jTruthy (jGet resource "id")) then []
      else
        [{ vaccine := codeLabel (jGet resource "vaccineCode") "Immunization",
           status := jStr? (jGet resource "status"),
           atv := jsOr (jGet resource "occurrenceDateTime")
             (jsOr (jGet resource "recorded")
               (jGetO (jGet resource "meta") "lastUpdated")),
           evidence := [{ resourceType := "Immunization", id := evidId resource }] }]))

inductive Trend where
  | up | down | flat
  deriving DecidableEq, Repr

structure VitalPre where
  code : String
  label : String
  value : String
  atv : Option J
  evidence : List EvidenceRef

structure VitalRow where
  code : String
  label : String
  latest : String
  prev : Option String
  trend : Option Trend
  evidence : List EvidenceRef
  deriving DecidableEq, Repr

/-- `x ?? "lit"`: a nullish chain ending in a string literal. -/
def jsOrStr (o : Option J) (s : String) : J :=
  match o with
  | none => .jstr s
  | some .jnull => .jstr s
  | some v => v

/-- The vital-classified projections (lines 591-604), sorted by descending
date score. -/
def vitalsPre (env : Env) (m : List (String × J)) : List VitalPre :=
  sortByDesc (fun p => dateScore env p.atv)
    ((valuesOf m).flatMap (fun resource =>
      if !(jIsStr (jGet resource "resourceType") "Observation") ||
          !(jTruthy (jGet resource "id")) ||
          !(isVitalObservation env (some resource)) then []
      else
        [{ code := jsStringRaw env
             (jsOr (jGetO (jIdxO (jGetO (jGet resource "code") "coding") 0) "code")
               (jGet resource "id")),
           label := codeLabel (jGet resource "code") "Vital",
           value := observationValue env (some resource),
           atv := dateValue (some resource),
           evidence := [{ resourceType := "Observation", id := evidId resource }] }]))

/-- `Array.prototype.findIndex` (`none` models `-1`). -/
def jsFindIndex (p : α → Bool) : List α → Option Nat
  | [] => none
  | a :: as => if p a then some 0 else (jsFindIndex p as).map (fun i => i + 1)

/-- The trend computation of the vitals `reduce` (lines 615-622). -/
def trendOf (latest prev : String) : Option Trend :=
  match numericFromValue latest, numericFromValue prev with
  | some l, some p => some (if l > p then .up else if l < p then .down else .flat)
  | _, _ => none

/-- A vital row pushed for a previously-unseen key (line 608). -/
def freshVital (c : VitalPre) : VitalRow :=
  { code := c.code, label := c.label, latest := c.value, prev := none, trend := none,
    evidence := c.evidence }

/-- `{ ...existing, prev, trend }` (line 623). -/
def setPrevVital (v : VitalRow) (c : VitalPre) : VitalRow :=
  { v with prev := some c.value, trend := trendOf v.latest c.value }

/-- One step of the vitals `reduce` (lines 605-626). -/
def vitalsStep (acc : List VitalRow) (current : VitalPre) : List VitalRow :=
  match jsFindIndex (fun v => v.code == current.code || v.label == current.label) acc with
  | none => acc ++ [freshVital current]
  | some i =>
      match acc.get? i with
      | none => acc
      | some existing =>
          if existing.prev.isNone then acc.set i (setPrevVital existing current)
          else acc

/-- The vitals `reduce` (lines 605-626). -/
def vitalsReduce (rows : List VitalPre) : List VitalRow :=
  rows.foldl vitalsStep []

/-- `vitals` (lines 591-626). -/
def vitalsOf (env : Env) (m : List (String × J)) : List VitalRow :=
  vitalsReduce (vitalsPre env m)

structure LabPre where
  label : String
  latest : String
  flag : Option ObsFlag
  atv : Option J
  evidence : List EvidenceRef

structure LabRow where
  label : String
  latest : String
  flag : Option ObsFlag
  evidence : List EvidenceRef

/-- `labs` before the final projection (lines 628-674). -/
def labsPre (env : Env) (m : List (String × J)) : List LabPre :=
  sortByDesc (fun p => dateScore env p.atv)
    ((valuesOf m).flatMap (fun resource =>
      if !(jTruthy (jGet resource "resourceType")) || !(jTruthy (jGet resource "id")) then []
      else if jIsStr (jGet resource "resourceType") "Observation" &&
          isLabObservation env (some resource) then
        [{ label := codeLabel (jGet resource "code") "Lab result",
           latest := observationValue env (some resource),
           flag := observationFlag env (some resource),
           atv := dateValue (some resource),
           evidence := [{ resourceType := "Observation", id := evidId resource }] }]
      else if jIsStr (jGet resource "resourceType") "DiagnosticReport" then
        (asArray (jGet resource "result")).flatMap (fun resultRef =>
          match refId (jGet resultRef "reference") (some "Observation") with
          | none => []
          | some observationId =>
              match mlookup m ("Observation/" ++ observationId) with
              | none => []
              | some observation =>
                  let concrete := hasConcreteObservationValue (some observation)
                  let flag := observationFlag env (some observation)
                  if !concrete && flag.isNone then []
                  else
                    [{ label := codeLabel (jGet observation "code")
                         (codeLabel (jGet resource "code") "Diagnostic report"),
                       latest := observationValue env (some observation),
                       flag := flag,
                       atv := jsOr (dateValue (some observation)) (dateValue (some resource)),
                       evidence :=
                         [{ resourceType := "DiagnosticReport", id := evidId resource },
                          { resourceType := "Observation", id := evidId observation }] }])
      else []))

/-- `labs` (line 675). -/
def labsOf (env : Env) (m : List (String × J)) : List LabRow :=
  (labsPre env m).map (fun p =>
    { label := p.label, latest := p.latest, flag := p.flag, evidence := p.evidence })

inductive TKind where
  | encounter | lab | vital | med | problem | procedure | document
  deriving DecidableEq, Repr

structure TimelineEvent where
  atv : J
  kind : TKind
  label : String
  summary : Option J
  severity : Option Severity
  evidence : List EvidenceRef

def flagToString : ObsFlag → String
  | .H => "H"
  | .L => "L"
  | .A => "A"
  | .critical => "critical"

/-- `timeline` (lines 677-790). -/
def timelineOf (env : Env) (m : List (String × J)) : List TimelineEvent :=
  sortByDesc (fun e => dateScore env (some e.atv))
    ((valuesOf m).flatMap (fun resource =>
      if !(jTruthy (jGet resource "resourceType")) || !(jTruthy (jGet resource "id")) then []
      else if jIsStr (jGet resource "resourceType") "Encounter" then
        [{ atv := jsOrStr (jsOr (jGetO (jGet resource "period") "start")
             (jsOr (jGetO (jGet resource "period") "end")
               (jGetO (jGet resource "meta") "lastUpdated"))) "Unknown date",
           kind := .encounter,
           label := if jTruthy (jIdxO (jGet resource "type") 0) then
               codeLabel (jIdxO (jGet resource "type") 0) "Encounter"
             else "Encounter",
           summary := if jTruthy (jGet resource "status") then
               some (.jstr ("Status: " ++ jsStringRaw env (jGet resource "status")))
             else none,
           severity := none,
           evidence := [{ resourceType := "Encounter", id := evidId resource }] }]
      else if jIsStr (jGet resource "resourceType") "DiagnosticReport" then
        let resultFlags := (asArray (jGet resource "result")).flatMap (fun resultRef =>
          match refId (jGet resultRef "reference") (some "Observation") with
          | none => []
          | some observationId =>
              match mlookup m ("Observation/" ++ observationId) with
              | none => []
              | some observation =>
                  match observationFlag env (some observation) with
                  | some f => [f]
                  | none => [])
        let severity := if resultFlags.contains .critical then some Severity.critical
          else if resultFlags.length > 0 then some Severity.high else none
        [{ atv := jsOrStr (dateValue (some resource)) "Unknown date",
           kind := .lab,
           label := codeLabel (jGet resource "code") "Diagnostic report",
           summary := if severity.isSome then
               some (.jstr ("Abnormal result (" ++
                 ((resultFlags.head?.map flagToString).getD "undefined") ++ ")"))
             else if jTruthy (jGet resource "status") then
               some (.jstr ("Status: " ++ jsStringRaw env (jGet resource "status")))
             else none,
           severity := severity,
           evidence := [{ resourceType := "DiagnosticReport", id := evidId resource }] }]
      else if jIsStr (jGet resource "resourceType") "Condition" then
        [{ atv := jsOrStr (jsOr (jGet resource "onsetDateTime")
             (jsOr (jGet resource "recordedDate")
               (jGetO (jGet resource "meta") "lastUpdated"))) "Unknown date",
           kind := .problem,
           label := conditionText (some resource),
           summary := (conditionStatus env (some resource)).map (fun s => .jstr s),
           severity := none,
           evidence := [{ resourceType := "Condition", id := evidId resource }] }]
      else if jIsStr (jGet resource "resourceType") "MedicationStatement" then
        [{ atv := jsOrStr (jsOr (jGet resource "effectiveDateTime")
             (jsOr (jGet resource "dateAsserted")
               (jGetO (jGet resource "meta") "lastUpdated"))) "Unknown date",
           kind := .med,
           label := codeLabel (jGet resource "medicationCodeableConcept") "Medication",
           summary := jGet resource "status",
           severity := none,
           evidence := [{ resourceType := "MedicationStatement", id := evidId resource }] }]
      else if jIsStr (jGet resource "resourceType") "Procedure" then
        [{ atv := jsOrStr (jsOr (jGet resource "performedDateTime")
             (jsOr (jGetO (jGet resource "performedPeriod") "end")
               (jsOr (jGetO (jGet resource "performedPeriod") "start")
                 (jGetO (jGet resource "meta") "lastUpdated")))) "Unknown date",
           kind := .procedure,
           label := codeLabel (jGet resource "code") "Procedure",
           summary := jGet resource "status",
           severity := none,
           evidence := [{ resourceType := "Procedure", id := evidId resource }] }]
      else if jIsStr (jGet resource "resourceType") "Observation" &&
          isVitalObservation env (some resource) then
        [{ atv := jsOrStr (dateValue (some resource)) "Unknown date",
           kind := .vital,
           label := codeLabel (jGet resource "code") "Vital",
           summary := some (.jstr (observationValue env (some resource))),
           severity := none,
           evidence := [{ resourceType := "Observation", id := evidId resource }] }]
      else if jIsStr (jGet resource "resourceType") "DocumentReference" then
        [{ atv := jsOrStr (jsOr (jGet resource "date")
             (jGetO (jGet resource "meta") "lastUpdated")) "Unknown date",
           kind := .document,
           label := codeLabel (jGet resource "type") "Document",
           summary := jGet resource "status",
           severity := none,
           evidence := [{ resourceType := "DocumentReference", id := evidId resource }] }]
      else []))

/-- `encounters` (line 792). -/
def encountersOf (m : List (String × J)) : List J :=
  (valuesOf m).filter (fun r =>
    jIsStr (jGet r "resourceType") "Encounter" && jTruthy (jGet r "id"))

/-- The encounter date chain `period?.start ?? period?.end ?? meta?.lastUpdated`. -/
def encounterAt (e : J) : Option J :=
  jsOr (jGetO (jGet e "period") "start")
    (jsOr (jGetO (jGet e "period") "end") (jGetO (jGet e "meta") "lastUpdated"))

/-- `encountersLast12m` (lines 793-796). -/
def encountersLast12mOf (env : Env) (m : List (String × J)) : List J :=
  (encountersOf m).filter (fun e =>
    let ats := dateScore env (encounterAt e)
    ats > 0 && ats ≥ daysAgo env 365)

structure Utilization where
  ed12m : Nat
  ip12m : Nat
  evidence : List EvidenceRef

/-- `ed12m`, `ip12m` and the utilization evidence (lines 797-802). -/
def utilizationOf (env : Env) (m : List (String × J)) : Utilization :=
  { ed12m := ((encountersLast12mOf env m).filter (fun e =>
      strIncludes (encounterClassCode env (some e)) "EMER")).length,
    ip12m := ((encountersLast12mOf env m).filter (fun e =>
      let c := encounterClassCode env (some e)
      strIncludes c "IMP" || strIncludes c "INPAT")).length,
    evidence := ((encountersLast12mOf env m).take 10).map (fun e =>
      { resourceType := "Encounter", id := evidId e }) }

structure AbnRow where
  id : String
  label : String
  atv : Option J
  abnormal : Option AbnLabel
  value : String
  status : Option String

/-- `abnormalLabs` (lines 804-815). -/
def abnormalLabsOf (env : Env) (m : List (String × J)) : List AbnRow :=
  sortByDesc (fun r => dateScore env r.atv)
    ((((valuesOf m).filter (fun r =>
        jIsStr (jGet r "resourceType") "Observation" && jTruthy (jGet r "id") &&
          isLabObservation env (some r))).map (fun obs =>
      { id := evidId obs,
        label := codeLabel (jGet obs "code") "Lab result",
        atv := dateValue (some obs),
        abnormal := observationAbnormalLabel env (some obs),
        value := observationValue env (some obs),
        status := observationStatus env (some obs) })).filter (fun row => row.abnormal.isSome))

/-- `abnormalVitals` (lines 817-828). -/
def abnormalVitalsOf (env : Env) (m : List (String × J)) : List AbnRow :=
  sortByDesc (fun r => dateScore env r.atv)
    ((((valuesOf m).filter (fun r =>
        jIsStr (jGet r "resourceType") "Observation" && jTruthy (jGet r "id") &&
          isVitalObservation env (some r))).map (fun obs =>
      { id := evidId obs,
        label := codeLabel (jGet obs "code") "Vital",
        atv := dateValue (some obs),
        abnormal := observationAbnormalLabel env (some obs),
        value := observationValue env (some obs),
        status := observationStatus env (some obs) })).filter (fun row => row.abnormal.isSome))

/-- `nonFinalObservations` (lines 830-835): lab- or vital-classified
observations whose lowercased status is present and differs from `"final"`. -/
def nonFinalObservationsOf (env : Env) (m : List (String × J)) : List J :=
  ((valuesOf m).filter (fun r =>
    jIsStr (jGet r "resourceType") "Observation" && jTruthy (jGet r "id") &&
      (isLabObservation env (some r) || isVitalObservation env (some r)))).filter
    (fun obs =>
      let s := jsLower ((observationStatus env (some obs)).getD "")
      s ≠ "" && s ≠ "final")

structure SimpleRow where
  id : String
  text : String
  atv : Option J

/-- `severeAllergies` (lines 837-848). -/
def severeAllergiesOf (env : Env) (m : List (String × J)) : List SimpleRow :=
  let typed := (valuesOf m).filter (fun r =>
    jIsStr (jGet r "resourceType") "AllergyIntolerance" && jTruthy (jGet r "id"))
  let severe := typed.filter (fun a =>
    let c := jsLower (jsString env (jsOr (jGet a "criticality")
      (jGetO (jIdxO (jGet a "reaction") 0) "severity")))
    strIncludes c "high" || strIncludes c "severe")
  sortByDesc (fun r => dateScore env r.atv)
    (severe.map (fun a =>
      { id := evidId a,
        text := codeLabel (jGet a "code") "Allergy",
        atv := jsOr (jGet a "onsetDateTime")
          (jsOr (jGet a "recordedDate") (jGetO (jGet a "meta") "lastUpdated")) }))

/-- `chronicProblems` (lines 850-857). -/
def chronicProblemsOf (env : Env) (m : List (String × J)) : List SimpleRow :=
  let typed := (valuesOf m).filter (fun r =>
    jIsStr (jGet r "resourceType") "Condition" && jTruthy (jGet r "id") &&
      isChronicProblemResource env (some r))
  sortByDesc (fun r => dateScore env r.atv)
    (typed.map (fun c =>
      { id := evidId c,
        text := conditionText (some c),
        atv := jsOr (jGet c "onsetDateTime")
          (jsOr (jGet c "recordedDate") (jGetO (jGet c "meta") "lastUpdated")) }))

structure ChronicMedRow where
  id : String
  rtype : String
  text : String
  atv : Option J

/-- `chronicMeds` (lines 859-872). -/
def chronicMedsOf (env : Env) (m : List (String × J)) : List ChronicMedRow :=
  let typed := (valuesOf m).filter (fun r =>
    (jIsStr (jGet r "resourceType") "MedicationStatement" ||
      jIsStr (jGet r "resourceType") "MedicationRequest") && jTruthy (jGet r "id"))
  let chronic := typed.filter (fun mRes =>
    let medRefId := refId (jGetO (jGet mRes "medicationReference") "reference")
      (some "Medication")
    let medRef := match medRefId with
      | some i => mlookup m ("Medication/" ++ i)
      | none => none
    isChronicMedicationResource env (some mRes) medRef)
  sortByDesc (fun r => dateScore env r.atv)
    (chronic.map (fun mRes =>
      { id := evidId mRes,
        rtype := evidType mRes,
        text := codeLabel (jGet mRes "medicationCodeableConcept") "Medication",
        atv := jsOr (jGet mRes "effectiveDateTime")
          (jsOr (jGetO (jGet mRes "effectivePeriod") "start")
            (jsOr (jGet mRes "authoredOn")
              (jsOr (jGet mRes "dateAsserted")
                (jGetO (jGet mRes "meta") "lastUpdated")))) }))

structure AcuteRow where
  id : String
  atv : Option J
  classCode : String
  label : String
  status : String

/-- `recentAcuteEncounters` (lines 874-884). -/
def recentAcuteEncountersOf (env : Env) (m : List (String × J)) : List AcuteRow :=
  let mapped := (encountersOf m).map (fun e =>
    ({ id := evidId e,
       atv := encounterAt e,
       classCode := encounterClassCode env (some e),
       label := if jTruthy (jIdxO (jGet e "type") 0) then
           codeLabel (jIdxO (jGet e "type") 0) "Encounter"
         else "Encounter",
       status := jsTrim (jsString env (jGet e "status")) } : AcuteRow))
  let recent := mapped.filter (fun e => dateScore env e.atv ≥ daysAgo env 30)
  let acute := recent.filter (fun e =>
    strIncludes e.classCode "EMER" || strIncludes e.classCode "IMP" ||
      strIncludes e.classCode "INPAT")
  sortByDesc (fun r => dateScore env r.atv) acute

def abnToString : AbnLabel → String
  | .High => "High"
  | .Low => "Low"
  | .Abnormal => "Abnormal"
  | .Critical => "Critical"

/-- Banner pushed by rule 1, abnormal labs (lines 887-897).  The `[]` case is
unreachable: the push is guarded by `length > 0`. -/
def mkAbnormalLabsBanner (rows : List AbnRow) : Banner :=
  match rows with
  | [] => { rule := .abnormalLabs, severity := .high, title := "", detail := none,
            occurredAt := none, evidence := [] }
  | top :: _ =>
      { rule := .abnormalLabs,
        severity := if rows.any (fun r => r.abnormal == some .Critical) then .critical
          else .high,
        title := toString rows.length ++ " abnormal lab result" ++
          (if rows.length > 1 then "s" else ""),
        detail := some (top.label ++ ": " ++ top.value ++ " (" ++
          ((top.abnormal.map abnToString).getD "undefined") ++ ")"),
        occurredAt := top.atv,
        evidence := [{ resourceType := "Observation", id := top.id }] }

/-- Banner pushed by rule 2, abnormal vitals (lines 898-907). -/
def mkAbnormalVitalsBanner (rows : List AbnRow) : Banner :=
  match rows with
  | [] => { rule := .abnormalVitals, severity := .high, title := "", detail := none,
            occurredAt := none, evidence := [] }
  | top :: _ =>
      { rule := .abnormalVitals,
        severity := .high,
        title := toString rows.length ++ " abnormal vital" ++
          (if rows.length > 1 then "s" else ""),
        detail := some (top.label ++ ": " ++ top.value ++ " (" ++
          ((top.abnormal.map abnToString).getD "undefined") ++ ")"),
        occurredAt := top.atv,
        evidence := [{ resourceType := "Observation", id := top.id }] }

/-- Banner pushed by rule 3, severe allergies (lines 908-917). -/
def mkSevereAllergiesBanner (rows : List SimpleRow) : Banner :=
  match rows with
  | [] => { rule := .severeAllergies, severity := .critical, title := "", detail := none,
            occurredAt := none, evidence := [] }
  | top :: _ =>
      { rule := .severeAllergies,
        severity := .critical,
        title := toString rows.length ++ " severe allerg" ++
          (if rows.length > 1 then "ies" else "y"),
        detail := some top.text,
        occurredAt := top.atv,
        evidence := [{ resourceType := "AllergyIntolerance", id := top.id }] }

/-- Banner pushed by rule 4, acute utilization (lines 918-929). -/
def mkAcuteBanner (rows : List AcuteRow) : Banner :=
  match rows with
  | [] => { rule := .acuteUtilization, severity := .medium, title := "", detail := none,
            occurredAt := none, evidence := [] }
  | top :: _ =>
      { rule := .acuteUtilization,
        severity := .medium,
        title := "Recent acute utilization: ED " ++
          toString (rows.filter (fun e => strIncludes e.classCode "EMER")).length ++
          ", IP " ++
          toString (rows.filter (fun e =>
            strIncludes e.classCode "IMP" || strIncludes e.classCode "INPAT")).length,
        detail := some (top.label ++ (if top.status ≠ "" then " • " ++ top.status else "")),
        occurredAt := top.atv,
        evidence := [{ resourceType := "Encounter", id := top.id }] }

/-- Banner pushed by rule 5, non-final results (lines 930-939). -/
def mkNonFinalBanner (env : Env) (rows : List J) : Banner :=
  match rows with
  | [] => { rule := .nonFinalResults, severity := .info, title := "", detail := none,
            occurredAt := none, evidence := [] }
  | top :: _ =>
      { rule := .nonFinalResults,
        severity := .info,
        title := toString rows.length ++ " observation" ++
          (if rows.length > 1 then "s are" else " is") ++ " not final",
        detail := some (codeLabel (jGet top "code") "Observation" ++ " • status " ++
          ((observationStatus env (some top)).getD "unknown")),
        occurredAt := dateValue (some top),
        evidence := [{ resourceType := "Observation", id := evidId top }] }

/-- Banner pushed by rule 6, chronic burden (lines 940-954). -/
def mkChronicBanner (probs : List SimpleRow) (meds : List ChronicMedRow) : Banner :=
  { rule := .chronicBurden,
    severity := .info,
    title := "Chronic burden: " ++ toString probs.length ++ " problems, " ++
      toString meds.length ++ " meds",
    detail := some (match probs.head? with
      | some p => p.text
      | none =>
          match meds.head? with
          | some mm => mm.text
          | none => "Chronic disease indicators present"),
    occurredAt := jsOr (probs.head?.bind (fun p => p.atv))
      (meds.head?.bind (fun mm => mm.atv)),
    evidence := ((probs.take 6).map (fun p =>
        ({ resourceType := "Condition", id := p.id } : EvidenceRef)) ++
      (meds.take 6).map (fun mm =>
        ({ resourceType := mm.rtype, id := mm.id } : EvidenceRef))).take 10 }

/-- The banner block before the final `.slice(0, 8)` (lines 886-954): six
sequential conditional pushes in fixed rule order. -/
def bannersPreOf (env : Env) (m : List (String × J)) : List Banner :=
  let abnLabs := abnormalLabsOf env m
  let abnVitals := abnormalVitalsOf env m
  let sevAll := severeAllergiesOf env m
  let acute := recentAcuteEncountersOf env m
  let nonFinal := nonFinalObservationsOf env m
  let chronProbs := chronicProblemsOf env m
  let chronMeds := chronicMedsOf env m
  let bs : List Banner := []
  let bs := if abnLabs.length > 0 then bs ++ [mkAbnormalLabsBanner abnLabs] else bs
  let bs := if abnVitals.length > 0 then bs ++ [mkAbnormalVitalsBanner abnVitals] else bs
  let bs := if sevAll.length > 0 then bs ++ [mkSevereAllergiesBanner sevAll] else bs
  let bs := if acute.length > 0 then bs ++ [mkAcuteBanner acute] else bs
  let bs := if nonFinal.length > 0 then bs ++ [mkNonFinalBanner env nonFinal] else bs
  let bs := if chronProbs.length > 0 || chronMeds.length > 0 then
      bs ++ [mkChronicBanner chronProbs chronMeds]
    else bs
  bs

structure Snapshot where
  problems : List ProblemRow
  procedures : List ProcedureRow
  meds : List MedRow
  immunizations : List ImmunizationRow
  allergies : List AllergyRow
  socialHistory : List ObsSummaryRow
  mentalStatus : List ObsSummaryRow
  vitals : List VitalRow
  labs : List LabRow
  utilization : Utilization

/-- `PatientInsightsDTO` (lines 3-21). -/
structure DTO where
  version : String
  patient : Patient
  banners : List Banner
  snapshot : Snapshot
  timeline : List TimelineEvent
  resources : Option (List (String × J))

/-- The body of `buildInsights` after the `bundle.entry` access (lines
415-964), total over any non-nullish bundle value. -/
def buildInsightsCore (env : Env) (bundle : J) (includeResources : Bool) : DTO :=
  let m := resourcesOf env bundle
  { version := "insights-v1",
    patient := patientOf env m,
    banners := (bannersPreOf env m).take 8,
    snapshot :=
      { problems := problemsOf env m,
        procedures := proceduresOf env m,
        meds := medsOf env m,
        immunizations := immunizationsOf env m,
        allergies := allergiesOf env m,
        socialHistory := socialHistoryOf env m,
        mentalStatus := mentalStatusOf env m,
        vitals := vitalsOf env m,
        labs := labsOf env m,
        utilization := utilizationOf env m },
    timeline := timelineOf env m,
    resources := if includeResources then some m else none }

inductive JsErr where
  | typeError
  deriving DecidableEq, Repr

/-- `buildInsights` (line 415): the very first statement reads `bundle.entry`
with no null guard, so a nullish `bundle` argument throws a `TypeError`;
every other input reaches the total core. -/
def buildInsights (env : Env) (bundle : Option J) (includeResources : Bool) :
    Except JsErr DTO :=
  match bundle with
  | none => .error .typeError
  | some .jnull => .error .typeError
  | some b => .ok (buildInsightsCore env b includeResources)

inductive HBody where
  | errMsg (s : String)
  | dto (d : DTO)

structure HttpResponse where
  statusCode : Nat
  body : HBody

/-- `handler` (handler.ts lines 4-29) applied to the parsed request body:
reject with 400 unless `body.bundle` is truthy with `resourceType ===
"Bundle"`, else run the core with `includeResources: true`; an exception
maps to 500. -/
def handler (env : Env) (body : J) : HttpResponse :=
  let bundle := jGet body "bundle"
  if !(jTruthy bundle) || !(jIsStr (jGetO bundle "resourceType") "Bundle") then
    { statusCode := 400, body := .errMsg "bundle (FHIR Bundle) is required" }
  else
    match buildInsights env bundle true with
    | .ok d => { statusCode := 200, body := .dto d }
    | .error _ => { statusCode := 500, body := .errMsg "server error" }

/-! ## Claim C4: the best-effort date accessor -/

/-- The candidate chain of `dateValue`, in source order. -/
def dateCandidates (r : Option J) : List (Option J) :=
  [jGetO r "effectiveDateTime",
   jGetO (jGetO r "effectivePeriod") "end",
   jGetO (jGetO r "effectivePeriod") "start",
   jGetO r "issued",
   jGetO (jGetO r "meta") "lastUpdated"]

/-- Absent or null: the values `??` skips. -/
def isNullish (o : Option J) : Bool :=
  match o with
  | none => true
  | some .jnull => true
  | some _ => false

/-- A candidate that is present, non-null and not the empty string — the
"non-empty" reading of the claim. -/
def isNonEmptyVal (o : Option J) : Bool :=
  match o with
  | none => false
  | some .jnull => false
  | some (.jstr "") => false
  | some _ => true

/-- `dateValue` as claim C4 words it: the first non-empty candidate, and
undefined when no candidate is non-empty. -/
def dateValueClaim (r : Option J) : Option J :=
  ((dateCandidates r).find? isNonEmptyVal).getD none

/-- `dateValue` as the code has it: the first candidate that is present and
non-null; when the first four are all nullish the chain's value is the last
candidate itself (which may be null or undefined). -/
def dateValueAmended (r : Option J) : Option J :=
  match ((dateCandidates r).dropLast).find? (fun o => !(isNullish o)) with
  | some v => v
  | none => ((dateCandidates r).getLast?).getD none

theorem jsOr_eq (a b : Option J) : jsOr a b = if isNullish a then b else a := by
  cases a with
  | none => rfl
  | some v => cases v <;> rfl

/-- Claim C4, counterexample: with `effectiveDateTime` present but equal to
the empty string and a non-empty `issued`, the accessor returns the empty
string (the first non-nullish candidate), not the first non-empty candidate
as the claim states. -/
theorem dateValue_empty_string_counterexample :
    dateValue (some (.jobj [("effectiveDateTime", .jstr ""),
        ("issued", .jstr "2020-01-01")])) = some (.jstr "") ∧
    dateValueClaim (some (.jobj [("effectiveDateTime", .jstr ""),
        ("issued", .jstr "2020-01-01")])) = some (.jstr "2020-01-01") ∧
    (J.jstr "") ≠ (J.jstr "2020-01-01") := by
  refine ⟨rfl, rfl, ?_⟩
  intro h
  simp at h

/-- Claim C4, amended: for every record, `dateValue` returns the first
candidate among effective-date-time, effective-period end, effective-period
start, issued, last-updated that is present and non-null (an empty string
counts as present and is returned as-is); when the first four candidates are
all absent or null it returns the last candidate's value, which may itself be
null or absent. -/
theorem dateValue_first_non_nullish (r : Option J) :
    dateValue r = dateValueAmended r := by
  unfold dateValue dateValueAmended dateCandidates
  rw [jsOr_eq, jsOr_eq, jsOr_eq, jsOr_eq]
  simp only [List.dropLast, List.find?, List.getLast?]
  by_cases h1 : isNullish (jGetO r "effectiveDateTime") <;>
    by_cases h2 : isNullish (jGetO (jGetO r "effectivePeriod") "end") <;>
      by_cases h3 : isNullish (jGetO (jGetO r "effectivePeriod") "start") <;>
        by_cases h4 : isNullish (jGetO r "issued") <;>
          simp [h1, h2, h3, h4]

/-! ## Claim C5: the best-effort label accessor -/

/-- `codeLabel` as claim C5 words it: non-blank direct text, else the first
coding's display, else the first coding's code, else the fallback. -/
def codeLabelClaim (code : Option J) (fallback : String) : String :=
  let coding0 := jIdxO (jGetO code "coding") 0
  let viaCode :=
    match jStr? (jGetO coding0 "code") with
    | some c => if jsTrim c ≠ "" then c else fallback
    | none => fallback
  let viaCoding :=
    match jStr? (jGetO coding0 "display") with
    | some d => if jsTrim d ≠ "" then d else viaCode
    | none => viaCode
  match jStr? (jGetO code "text") with
  | some t => if jsTrim t ≠ "" then t else viaCoding
  | none => viaCoding

/-- Claim C5, counterexample: when the first coding has only a raw code and a
later coding has a display, the accessor returns the later coding's display,
not the first coding's raw code as the claim's order prescribes. -/
theorem codeLabel_first_coding_counterexample :
    codeLabel (some (.jobj [("coding", .jarr
        [.jobj [("code", .jstr "c0")], .jobj [("display", .jstr "D1")]])])) "F" = "D1" ∧
    codeLabelClaim (some (.jobj [("coding", .jarr
        [.jobj [("code", .jstr "c0")], .jobj [("display", .jstr "D1")]])])) "F" = "c0" ∧
    "D1" ≠ "c0" := by
  refine ⟨rfl, rfl, ?_⟩
  decide

/-- `codeLabel` as the code has it, with the scans written as `findSome?`:
trimmed non-blank direct text; else the trimmed display of the first coding
bearing a non-blank display; else the trimmed code of the first coding
bearing a non-blank code; else the fallback (also returned for a falsy
codeable input). -/
def codeLabelAmended (code : Option J) (fallback : String) : String :=
  if !(jTruthy code) then fallback
  else
    let viaCoding :=
      match (asArray (jGetO code "coding")).findSome? (fun c =>
        match jStr? (jGet c "display") with
        | some d => if jsTrim d ≠ "" then some (jsTrim d) else none
        | none => none) with
      | some d => d
      | none =>
          match (asArray (jGetO code "coding")).findSome? (fun c =>
            match jStr? (jGet c "code") with
            | some d => if jsTrim d ≠ "" then some (jsTrim d) else none
            | none => none) with
          | some c => c
          | none => fallback
    match jStr? (jGetO code "text") with
    | some t => if jsTrim t ≠ "" then jsTrim t else viaCoding
    | none => viaCoding

theorem firstCodingDisplay_eq_findSome (cs : List J) :
    firstCodingDisplay cs = cs.findSome? (fun c =>
      match jStr? (jGet c "display") with
      | some d => if jsTrim d ≠ "" then some (jsTrim d) else none
      | none => none) := by
  induction cs with
  | nil => rfl
  | cons c rest ih =>
      simp only [firstCodingDisplay, List.findSome?]
      cases jStr? (jGet c "display") with
      | none => simpa using ih
      | some d =>
          by_cases hd : jsTrim d = "" <;> simp [hd, ih]

theorem firstCodingCode_eq_findSome (cs : List J) :
    firstCodingCode cs = cs.findSome? (fun c =>
      match jStr? (jGet c "code") with
      | some d => if jsTrim d ≠ "" then some (jsTrim d) else none
      | none => none) := by
  induction cs with
  | nil => rfl
  | cons c rest ih =>
      simp only [firstCodingCode, List.findSome?]
      cases jStr? (jGet c "code") with
      | none => simpa using ih
      | some d =>
          by_cases hd : jsTrim d = "" <;> simp [hd, ih]

/-- Claim C5, amended: for every codeable field and fallback, `codeLabel`
returns the trimmed direct text when non-blank, else the trimmed display of
the first coding with a non-blank display, else the trimmed code of the first
coding with a non-blank code, else the fallback. -/
theorem codeLabel_scan_amended (code : Option J) (fallback : String) :
    codeLabel code fallback = codeLabelAmended code fallback := by
  unfold codeLabel codeLabelAmended
  rw [firstCodingDisplay_eq_findSome, firstCodingCode_eq_findSome]

/-! ## Claim C1: the vitals collapse -/

/-- The vital row claim C1 describes for one key: the most recent occurrence
(the seed, first in descending order) supplies `latest`; the second-most-recent
occurrence (the head of the later matching occurrences) supplies `prev`;
`trend` is up / down / flat according as the parsed numeric value of `latest`
is greater than / less than / equal to that of `prev`, and is undefined when
the two are not both parseable; occurrences beyond the second are ignored. -/
def collapseRow (seed : VitalPre) (ms : List VitalPre) : VitalRow :=
  { code := seed.code,
    label := seed.label,
    latest := seed.value,
    prev := ms.head?.map (fun s => s.value),
    trend :=
      match ms.head? with
      | none => none
      | some s =>
          match numericFromValue seed.value, numericFromValue s.value with
          | some l, some p =>
              some (if l > p then .up else if l < p then .down else .flat)
          | _, _ => none,
    evidence := seed.evidence }

/-- The collapse by `(code or label)` identity as claim C1 describes it over a
descending-sorted list: the first row seeds a key; later rows matching it by
code or label feed `collapseRow`; the remaining rows are collapsed
recursively. -/
def collapseSpec : List VitalPre → List VitalRow
  | [] => []
  | r :: rs =>
      collapseRow r (rs.filter (fun s => r.code == s.code || r.label == s.label)) ::
        collapseSpec (rs.filter (fun s => !(r.code == s.code || r.label == s.label)))
termination_by l => l.length
decreasing_by
  simp only [List.length_cons]
  exact Nat.lt_succ_of_le (List.length_filter_le _ _)

/-- Recursive form of one `reduce` step: update the first matching accumulator
entry, else append a fresh row at the end. -/
def vitalsStepRec (acc : List VitalRow) (c : VitalPre) : List VitalRow :=
  match acc with
  | [] => [freshVital c]
  | v :: vs =>
      if v.code == c.code || v.label == c.label then
        (if v.prev.isNone then setPrevVital v c else v) :: vs
      else v :: vitalsStepRec vs c

theorem vitalsStep_eq_rec (acc : List VitalRow) (c : VitalPre) :
    vitalsStep acc c = vitalsStepRec acc c := by
  induction acc with
  | nil => rfl
  | cons v vs ih =>
      by_cases hp : (v.code == c.code || v.label == c.label) = true
      · have hfind : jsFindIndex (fun w => w.code == c.code || w.label == c.label)
            (v :: vs) = some 0 := by
          simp [jsFindIndex, hp]
        unfold vitalsStep vitalsStepRec
        rw [hfind, hp]
        simp only [List.get?, if_true]
        by_cases hn : v.prev.isNone = true
        · rw [hn]
          simp [List.set]
        · rw [Bool.not_eq_true] at hn
          rw [hn]
          simp
      · have hp' : (v.code == c.code || v.label == c.label) = false := by
          simpa using hp
        cases hf : jsFindIndex (fun w => w.code == c.code || w.label == c.label) vs with
        | none =>
            have hfind : jsFindIndex (fun w => w.code == c.code || w.label == c.label)
                (v :: vs) = none := by
              simp [jsFindIndex, hp', hf]
            have hvs : vitalsStep vs c = vs ++ [freshVital c] := by
              unfold vitalsStep
              rw [hf]
            unfold vitalsStep vitalsStepRec
            rw [hfind, hp']
            simp only [if_false]
            rw [← ih, hvs]
            simp
        | some i =>
            have hfind : jsFindIndex (fun w => w.code == c.code || w.label == c.label)
                (v :: vs) = some (i + 1) := by
              simp [jsFindIndex, hp', hf]
            unfold vitalsStep vitalsStepRec
            rw [hfind, hp']
            simp only [if_false]
            rw [← ih]
            unfold vitalsStep
            rw [hf]
            simp only [List.get?]
            cases hg : vs.get? i with
            | none => rfl
            | some existing =>
                by_cases hn : existing.prev.isNone = true
                · simp [hn, List.set]
                · rw [Bool.not_eq_true] at hn
                  simp [hn]

/-- One row absorbing one later row: a matching row sets `prev` when unset,
everything else is a no-op. -/
def absorbVital (e : VitalRow) (c : VitalPre) : VitalRow :=
  if e.code == c.code || e.label == c.label then
    (if e.prev.isNone then setPrevVital e c else e)
  else e

/-- A row absorbing a whole tail of later rows. -/
def absorbRun (e : VitalRow) (L : List VitalPre) : VitalRow :=
  L.foldl absorbVital e

theorem absorbVital_code (e : VitalRow) (c : VitalPre) :
    (absorbVital e c).code = e.code := by
  unfold absorbVital setPrevVital
  split <;> try rfl
  split <;> rfl

theorem absorbVital_label (e : VitalRow) (c : VitalPre) :
    (absorbVital e c).label = e.label := by
  unfold absorbVital setPrevVital
  split <;> try rfl
  split <;> rfl

/-- Peeling lemma: folding the step over a list with accumulator `e :: es`
lets `e` absorb exactly its matching rows while the rest of the fold proceeds
on the non-matching residue with accumulator `es`. -/
theorem foldl_stepRec_cons (L : List VitalPre) :
    ∀ (e : VitalRow) (es : List VitalRow),
      L.foldl vitalsStepRec (e :: es) =
        absorbRun e L ::
          (L.filter (fun c => !(e.code == c.code || e.label == c.label))).foldl
            vitalsStepRec es := by
  induction L with
  | nil => intro e es; rfl
  | cons c cs ih =>
      intro e es
      by_cases hp : (e.code == c.code || e.label == c.label) = true
      · have hstep : vitalsStepRec (e :: es) c =
            absorbVital e c :: es := by
          simp [vitalsStepRec, absorbVital, hp]
        have habs : absorbRun e (c :: cs) = absorbRun (absorbVital e c) cs := rfl
        have hfilter : (c :: cs).filter
              (fun x => !(e.code == x.code || e.label == x.label)) =
            cs.filter (fun x => !(e.code == x.code || e.label == x.label)) := by
          simp [List.filter, hp]
        calc (c :: cs).foldl vitalsStepRec (e :: es)
            = cs.foldl vitalsStepRec (absorbVital e c :: es) := by
              simp [List.foldl, hstep]
          _ = absorbRun (absorbVital e c) cs ::
              (cs.filter (fun x => !((absorbVital e c).code == x.code ||
                (absorbVital e c).label == x.label))).foldl vitalsStepRec es := ih _ _
          _ = absorbRun e (c :: cs) ::
              ((c :: cs).filter (fun x => !(e.code == x.code ||
                e.label == x.label))).foldl vitalsStepRec es := by
              rw [habs, hfilter]
              simp [absorbVital_code, absorbVital_label]
      · have hp' : (e.code == c.code || e.label == c.label) = false := by
          simpa using hp
        have hstep : vitalsStepRec (e :: es) c = e :: vitalsStepRec es c := by
          simp [vitalsStepRec, hp']
        have habs : absorbRun e (c :: cs) = absorbRun e cs := by
          simp [absorbRun, List.foldl, absorbVital, hp']
        have hfilter : (c :: cs).filter
              (fun x => !(e.code == x.code || e.label == x.label)) =
            c :: cs.filter (fun x => !(e.code == x.code || e.label == x.label)) := by
          simp [List.filter, hp']
        calc (c :: cs).foldl vitalsStepRec (e :: es)
            = cs.foldl vitalsStepRec (e :: vitalsStepRec es c) := by
              simp [List.foldl, hstep]
          _ = absorbRun e cs ::
              (cs.filter (fun x => !(e.code == x.code ||
                e.label == x.label))).foldl vitalsStepRec (vitalsStepRec es c) := ih _ _
          _ = absorbRun e (c :: cs) ::
              ((c :: cs).filter (fun x => !(e.code == x.code ||
                e.label == x.label))).foldl vitalsStepRec es := by
              rw [habs, hfilter]
              rfl

theorem absorbVital_saturated {e : VitalRow} (c : VitalPre) (h : e.prev.isSome) :
    absorbVital e c = e := by
  unfold absorbVital
  have : e.prev.isNone = false := by
    cases he : e.prev with
    | none => rw [he] at h; simp at h
    | some v => simp
  split
  · rw [this]; simp
  · rfl

theorem absorbRun_saturated {e : VitalRow} (L : List VitalPre) (h : e.prev.isSome) :
    absorbRun e L = e := by
  induction L with
  | nil => rfl
  | cons c cs ih =>
      unfold absorbRun at ih ⊢
      simp only [List.foldl, absorbVital_saturated c h]
      exact ih

theorem setPrevVital_prev_isSome (e : VitalRow) (c : VitalPre) :
    (setPrevVital e c).prev.isSome := by
  simp [setPrevVital]

theorem absorbRun_fresh (c : VitalPre) (L : List VitalPre) :
    absorbRun (freshVital c) L =
      collapseRow c (L.filter (fun s => c.code == s.code || c.label == s.label)) := by
  induction L with
  | nil => rfl
  | cons s ss ih =>
      by_cases hm : (c.code == s.code || c.label == s.label) = true
      · have hm' : ((freshVital c).code == s.code ||
            (freshVital c).label == s.label) = true := hm
        have h1 : absorbVital (freshVital c) s = setPrevVital (freshVital c) s := by
          unfold absorbVital
          rw [hm']
          have hprev : (freshVital c).prev.isNone = true := rfl
          rw [hprev]
          simp
        have h2 : absorbRun (freshVital c) (s :: ss) =
            absorbRun (setPrevVital (freshVital c) s) ss := by
          simp [absorbRun, List.foldl, h1]
        rw [h2, absorbRun_saturated ss (setPrevVital_prev_isSome _ _)]
        have hfilter : (s :: ss).filter
              (fun x => c.code == x.code || c.label == x.label) =
            s :: ss.filter (fun x => c.code == x.code || c.label == x.label) := by
          simp [List.filter, hm]
        rw [hfilter]
        show setPrevVital (freshVital c) s = _
        unfold setPrevVital freshVital collapseRow trendOf
        simp
      · have hm0 : (c.code == s.code || c.label == s.label) = false := by
          simpa using hm
        have hm' : ((freshVital c).code == s.code ||
            (freshVital c).label == s.label) = false := hm0
        have h1 : absorbVital (freshVital c) s = freshVital c := by
          unfold absorbVital
          rw [hm']
          simp
        have h2 : absorbRun (freshVital c) (s :: ss) = absorbRun (freshVital c) ss := by
          simp [absorbRun, List.foldl, h1]
        have hfilter : (s :: ss).filter
              (fun x => c.code == x.code || c.label == x.label) =
            ss.filter (fun x => c.code == x.code || c.label == x.label) := by
          simp [List.filter, hm0]
        rw [h2, hfilter, ih]

theorem vitalsReduce_eq_collapseSpec_aux :
    ∀ (n : Nat) (L : List VitalPre), L.length ≤ n → vitalsReduce L = collapseSpec L := by
  intro n
  induction n with
  | zero =>
      intro L hL
      have : L = [] := List.eq_nil_of_length_eq_zero (Nat.le_zero.mp hL)
      subst this
      simp [vitalsReduce, collapseSpec]
  | succ n ih =>
      intro L hL
      cases L with
      | nil => simp [vitalsReduce, collapseSpec]
      | cons c cs =>
          have hfun : vitalsStep = vitalsStepRec :=
            funext fun a => funext fun x => vitalsStep_eq_rec a x
          have h1 : vitalsReduce (c :: cs) = cs.foldl vitalsStepRec [freshVital c] := by
            simp only [vitalsReduce, hfun, List.foldl]
            rfl
          rw [h1, foldl_stepRec_cons cs (freshVital c) []]
          have hcode : (freshVital c).code = c.code := rfl
          have hlabel : (freshVital c).label = c.label := rfl
          rw [absorbRun_fresh]
          have hlen : (cs.filter (fun x => !(c.code == x.code ||
              c.label == x.label))).length ≤ n := by
            have := List.length_filter_le
              (fun x => !(c.code == x.code || c.label == x.label)) cs
            simp only [List.length_cons] at hL
            omega
          have hrec : (cs.filter (fun x => !((freshVital c).code == x.code ||
              (freshVital c).label == x.label))).foldl vitalsStepRec ([] : List VitalRow) =
              collapseSpec (cs.filter (fun x => !(c.code == x.code ||
                 c.label == x.label))) := by
            rw [hcode, hlabel]
            have := ih (cs.filter (fun x => !(c.code == x.code || c.label == x.label))) hlen
            simp only [vitalsReduce, hfun] at this
            exact this
          rw [hrec]
          conv_rhs => rw [collapseSpec]

/-- The vitals `reduce` computes exactly the by-key collapse described by
claim C1, for every input row list. -/
theorem vitalsReduce_eq_collapseSpec (L : List VitalPre) :
    vitalsReduce L = collapseSpec L :=
  vitalsReduce_eq_collapseSpec_aux L.length L le_rfl

/-- Claim C1: for every input bundle, the vitals snapshot collapses the
vital-classified rows, after sorting by descending date score, by
(code or label) identity: for each key the most recent occurrence supplies
`latest`, the second-most-recent (if any) supplies `prev`, `trend` is
up / down / flat according as the parsed numeric value of `latest` compares
to that of `prev` (undefined when not both parseable), and occurrences beyond
the second never change `latest` or `prev` (see `collapseRow`). -/
theorem vitals_collapse_spec (env : Env) (bundle : J) (includeResources : Bool) :
    (buildInsightsCore env bundle includeResources).snapshot.vitals =
      collapseSpec (vitalsPre env (resourcesOf env bundle)) := by
  show vitalsOf env (resourcesOf env bundle) = _
  unfold vitalsOf
  exact vitalsReduce_eq_collapseSpec _

/-! ## Claim C7: the descending-recency sort invariant -/

theorem mem_insertByDesc {key : α → Int} {x y : α} {l : List α} :
    y ∈ insertByDesc key x l ↔ y = x ∨ y ∈ l := by
  induction l with
  | nil => simp [insertByDesc]
  | cons z zs ih =>
      unfold insertByDesc
      by_cases h : key x < key z
      · simp only [if_pos h, List.mem_cons, ih] <;> tauto
      · simp only [if_neg h, List.mem_cons] <;> tauto

theorem mem_sortByDesc {key : α → Int} {y : α} {l : List α} :
    y ∈ sortByDesc key l ↔ y ∈ l := by
  induction l with
  | nil => simp [sortByDesc]
  | cons x xs ih =>
      simp only [sortByDesc, mem_insertByDesc, List.mem_cons, ih]

theorem insertByDesc_pairwise {key : α → Int} (x : α) {l : List α}
    (h : l.Pairwise (fun a b => key b ≤ key a)) :
    (insertByDesc key x l).Pairwise (fun a b => key b ≤ key a) := by
  induction l with
  | nil => simp [insertByDesc]
  | cons z zs ih =>
      rw [List.pairwise_cons] at h
      unfold insertByDesc
      by_cases hx : key x < key z
      · rw [if_pos hx, List.pairwise_cons]
        constructor
        · intro a ha
          rw [mem_insertByDesc] at ha
          cases ha with
          | inl he => subst he; exact le_of_lt hx
          | inr hm => exact h.1 a hm
        · exact ih h.2
      · rw [if_neg hx, List.pairwise_cons]
        push_neg at hx
        constructor
        · intro a ha
          cases List.mem_cons.mp ha with
          | inl he => subst he; exact hx
          | inr hm => exact le_trans (h.1 a hm) hx
        · rw [List.pairwise_cons]
          exact h

theorem sortByDesc_pairwise (key : α → Int) (l : List α) :
    (sortByDesc key l).Pairwise (fun a b => key b ≤ key a) := by
  induction l with
  | nil => simp [sortByDesc]
  | cons x xs ih => exact insertByDesc_pairwise x ih

theorem sortByDesc_chain (key : α → Int) (l : List α) :
    (sortByDesc key l).Chain' (fun a b => key b ≤ key a) :=
  (sortByDesc_pairwise key l).chain'

/-- In a descending sort, a row with a positive key is never preceded by a
row with a non-positive key: positive-dated records come before score-zero
(dateless / unparsable) and negative (pre-epoch) ones. -/
theorem sortByDesc_positive_before {α : Type} (key : α → Int) (l : List α)
    (i j : Nat) (a b : α) (hij : i < j)
    (ha : (sortByDesc key l).get? i = some a)
    (hb : (sortByDesc key l).get? j = some b)
    (hpos : 0 < key b) : 0 < key a := by
  have hj : j < (sortByDesc key l).length := (List.get?_eq_some.mp hb).1
  have hi : i < (sortByDesc key l).length := Nat.lt_trans hij hj
  have hp := (List.pairwise_iff_get.mp (sortByDesc_pairwise key l))
    ⟨i, hi⟩ ⟨j, hj⟩ hij
  have hga : (sortByDesc key l).get ⟨i, hi⟩ = a := by
    have := List.get?_eq_get hi
    rw [this] at ha
    exact Option.some.inj ha
  have hgb : (sortByDesc key l).get ⟨j, hj⟩ = b := by
    have := List.get?_eq_get hj
    rw [this] at hb
    exact Option.some.inj hb
  rw [hga, hgb] at hp
  omega

/-- Claim C7, counterexample to "records lacking any usable date sort last":
with one dateless Condition and one Condition whose onset parses to a
negative (pre-1970) timestamp, the dateless row (score 0) sorts first and a
row with a usable date follows it. -/
theorem dateless_not_last_counterexample :
    ((problemsPre
        { dp := fun s => if s == "1950-01-01" then some (-631152000000) else none,
          now := 0, numStr := fun _ => "" }
        (resourcesOf
          { dp := fun s => if s == "1950-01-01" then some (-631152000000) else none,
            now := 0, numStr := fun _ => "" }
          (.jobj [("entry", .jarr
            [.jobj [("resourceType", .jstr "Condition"), ("id", .jstr "c1")],
             .jobj [("resourceType", .jstr "Condition"), ("id", .jstr "c2"),
                    ("onsetDateTime", .jstr "1950-01-01")]])]))).map
      (fun p => p.atv)) = [none, some (.jstr "1950-01-01")] ∧
    dateScore
      { dp := fun s => if s == "1950-01-01" then some (-631152000000) else none,
        now := 0, numStr := fun _ => "" } (some (.jstr "1950-01-01")) < 0 := by
  constructor
  · rfl
  · decide

/-- Claim C7, amended: every category's rows are emitted in an order where
each adjacent pair (a, b) satisfies `dateScore a >= dateScore b`; `dateScore`
maps an absent, falsy or unparsable date to 0 and is total; and (replacing
the false "dateless rows sort last") a row with a positive-timestamp date is
never preceded by a score-zero or negative-score row. -/
theorem category_sort_invariant (env : Env) (bundle : J) :
    ((problemsPre env (resourcesOf env bundle)).Chain'
      (fun a b => dateScore env b.atv ≤ dateScore env a.atv)) ∧
    ((proceduresOf env (resourcesOf env bundle)).Chain'
      (fun a b => dateScore env b.atv ≤ dateScore env a.atv)) ∧
    ((medsPre env (resourcesOf env bundle)).Chain'
      (fun a b => dateScore env b.atv ≤ dateScore env a.atv)) ∧
    ((immunizationsOf env (resourcesOf env bundle)).Chain'
      (fun a b => dateScore env b.atv ≤ dateScore env a.atv)) ∧
    ((allergiesPre env (resourcesOf env bundle)).Chain'
      (fun a b => dateScore env b.atv ≤ dateScore env a.atv)) ∧
    ((socialHistoryOf env (resourcesOf env bundle)).Chain'
      (fun a b => dateScore env b.atv ≤ dateScore env a.atv)) ∧
    ((mentalStatusOf env (resourcesOf env bundle)).Chain'
      (fun a b => dateScore env b.atv ≤ dateScore env a.atv)) ∧
    ((vitalsPre env (resourcesOf env bundle)).Chain'
      (fun a b => dateScore env b.atv ≤ dateScore env a.atv)) ∧
    ((labsPre env (resourcesOf env bundle)).Chain'
      (fun a b => dateScore env b.atv ≤ dateScore env a.atv)) ∧
    ((timelineOf env (resourcesOf env bundle)).Chain'
      (fun a b => dateScore env (some b.atv) ≤ dateScore env (some a.atv))) ∧
    ((abnormalLabsOf env (resourcesOf env bundle)).Chain'
      (fun a b => dateScore env b.atv ≤ dateScore env a.atv)) ∧
    ((abnormalVitalsOf env (resourcesOf env bundle)).Chain'
      (fun a b => dateScore env b.atv ≤ dateScore env a.atv)) ∧
    ((severeAllergiesOf env (resourcesOf env bundle)).Chain'
      (fun a b => dateScore env b.atv ≤ dateScore env a.atv)) ∧
    ((chronicProblemsOf env (resourcesOf env bundle)).Chain'
      (fun a b => dateScore env b.atv ≤ dateScore env a.atv)) ∧
    ((chronicMedsOf env (resourcesOf env bundle)).Chain'
      (fun a b => dateScore env b.atv ≤ dateScore env a.atv)) ∧
    ((recentAcuteEncountersOf env (resourcesOf env bundle)).Chain'
      (fun a b => dateScore env b.atv ≤ dateScore env a.atv)) ∧
    (∀ v : Option J, jTruthy v = false → dateScore env v = 0) ∧
    (∀ s : String, env.dp s = none → dateScore env (some (.jstr s)) = 0) := by
  refine ⟨?_, ?_, ?_, ?_, ?_, ?_, ?_, ?_, ?_, ?_, ?_, ?_, ?_, ?_, ?_, ?_, ?_, ?_⟩
  · exact sortByDesc_chain _ _
  · exact sortByDesc_chain _ _
  · exact sortByDesc_chain _ _
  · exact sortByDesc_chain _ _
  · exact sortByDesc_chain _ _
  · exact sortByDesc_chain _ _
  · exact sortByDesc_chain _ _
  · exact sortByDesc_chain _ _
  · exact sortByDesc_chain _ _
  · exact sortByDesc_chain _ _
  · exact sortByDesc_chain _ _
  · exact sortByDesc_chain _ _
  · unfold severeAllergiesOf
    exact sortByDesc_chain _ _
  · unfold chronicProblemsOf
    exact sortByDesc_chain _ _
  · unfold chronicMedsOf
    exact sortByDesc_chain _ _
  · unfold recentAcuteEncountersOf
    exact sortByDesc_chain _ _
  · intro v hv
    unfold dateScore
    rw [hv]
    rfl
  · intro s hs
    unfold dateScore
    by_cases h : jTruthy (some (.jstr s)) = true
    · rw [h]
      simp only [Bool.not_true, if_neg]
      have : env.dp (jToString env ((some (J.jstr s)).getD .jnull)) = none := hs
      rw [this]
      simp
    · simp only [Bool.not_eq_true] at h
      rw [h]
      rfl

/-! ## Claims C2, C9, C6: the banner synthesizer -/

theorem mkAbnormalLabsBanner_rule (rows : List AbnRow) :
    (mkAbnormalLabsBanner rows).rule = .abnormalLabs := by
  cases rows <;> rfl

theorem mkAbnormalVitalsBanner_rule (rows : List AbnRow) :
    (mkAbnormalVitalsBanner rows).rule = .abnormalVitals := by
  cases rows <;> rfl

theorem mkSevereAllergiesBanner_rule (rows : List SimpleRow) :
    (mkSevereAllergiesBanner rows).rule = .severeAllergies := by
  cases rows <;> rfl

theorem mkAcuteBanner_rule (rows : List AcuteRow) :
    (mkAcuteBanner rows).rule = .acuteUtilization := by
  cases rows <;> rfl

theorem mkNonFinalBanner_rule (env : Env) (rows : List J) :
    (mkNonFinalBanner env rows).rule = .nonFinalResults := by
  cases rows <;> rfl

theorem mkChronicBanner_rule (probs : List SimpleRow) (meds : List ChronicMedRow) :
    (mkChronicBanner probs meds).rule = .chronicBurden := rfl

/-- The six sequential conditional pushes amount to a fixed-order
concatenation of at-most-singleton segments. -/
theorem bannersPreOf_characterization (env : Env) (m : List (String × J)) :
    bannersPreOf env m =
      (if 0 < (abnormalLabsOf env m).length then
        [mkAbnormalLabsBanner (abnormalLabsOf env m)] else []) ++
      (if 0 < (abnormalVitalsOf env m).length then
        [mkAbnormalVitalsBanner (abnormalVitalsOf env m)] else []) ++
      (if 0 < (severeAllergiesOf env m).length then
        [mkSevereAllergiesBanner (severeAllergiesOf env m)] else []) ++
      (if 0 < (recentAcuteEncountersOf env m).length then
        [mkAcuteBanner (recentAcuteEncountersOf env m)] else []) ++
      (if 0 < (nonFinalObservationsOf env m).length then
        [mkNonFinalBanner env (nonFinalObservationsOf env m)] else []) ++
      (if 0 < (chronicProblemsOf env m).length ∨ 0 < (chronicMedsOf env m).length then
        [mkChronicBanner (chronicProblemsOf env m) (chronicMedsOf env m)] else []) := by
  unfold bannersPreOf
  split_ifs <;> simp_all

theorem bannersPreOf_length_le_six (env : Env) (m : List (String × J)) :
    (bannersPreOf env m).length ≤ 6 := by
  rw [bannersPreOf_characterization]
  split_ifs <;> simp

theorem bannersPreOf_take_eight (env : Env) (m : List (String × J)) :
    (bannersPreOf env m).take 8 = bannersPreOf env m :=
  List.take_of_length_le (le_trans (bannersPreOf_length_le_six env m) (by omega))

theorem buildInsightsCore_banners (env : Env) (bundle : J) (incl : Bool) :
    (buildInsightsCore env bundle incl).banners =
      bannersPreOf env (resourcesOf env bundle) :=
  bannersPreOf_take_eight env (resourcesOf env bundle)

theorem bannersPreOf_rules_strict_mono (env : Env) (m : List (String × J)) :
    (bannersPreOf env m).Pairwise (fun a b => a.rule.idx < b.rule.idx) := by
  rw [bannersPreOf_characterization]
  split_ifs <;>
    simp [List.pairwise_append, mkAbnormalLabsBanner_rule, mkAbnormalVitalsBanner_rule,
      mkSevereAllergiesBanner_rule, mkAcuteBanner_rule, mkNonFinalBanner_rule,
      mkChronicBanner_rule, BannerRule.idx]

theorem exists_rule_append (l1 l2 : List Banner) (k : BannerRule) :
    (∃ b ∈ l1 ++ l2, b.rule = k) ↔
      ((∃ b ∈ l1, b.rule = k) ∨ (∃ b ∈ l2, b.rule = k)) := by
  constructor
  · rintro ⟨b, hb, hk⟩
    rcases List.mem_append.mp hb with h | h
    · exact Or.inl ⟨b, h, hk⟩
    · exact Or.inr ⟨b, h, hk⟩
  · rintro (⟨b, hb, hk⟩ | ⟨b, hb, hk⟩)
    · exact ⟨b, List.mem_append.mpr (Or.inl hb), hk⟩
    · exact ⟨b, List.mem_append.mpr (Or.inr hb), hk⟩

theorem exists_rule_ite (c : Prop) [Decidable c] (x : Banner) (k : BannerRule) :
    (∃ b ∈ (if c then [x] else []), b.rule = k) ↔ (c ∧ x.rule = k) := by
  split_ifs with hc <;> simp_all

theorem bannersPreOf_rule_mem (env : Env) (m : List (String × J)) (k : BannerRule) :
    (∃ b ∈ bannersPreOf env m, b.rule = k) ↔
      (match k with
       | .abnormalLabs => abnormalLabsOf env m ≠ []
       | .abnormalVitals => abnormalVitalsOf env m ≠ []
       | .severeAllergies => severeAllergiesOf env m ≠ []
       | .acuteUtilization => recentAcuteEncountersOf env m ≠ []
       | .nonFinalResults => nonFinalObservationsOf env m ≠ []
       | .chronicBurden => chronicProblemsOf env m ≠ [] ∨ chronicMedsOf env m ≠ []) := by
  rw [bannersPreOf_characterization]
  rw [exists_rule_append, exists_rule_append, exists_rule_append, exists_rule_append,
    exists_rule_append]
  rw [exists_rule_ite, exists_rule_ite, exists_rule_ite, exists_rule_ite,
    exists_rule_ite, exists_rule_ite]
  rw [mkAbnormalLabsBanner_rule, mkAbnormalVitalsBanner_rule,
    mkSevereAllergiesBanner_rule, mkAcuteBanner_rule, mkNonFinalBanner_rule,
    mkChronicBanner_rule]
  cases k <;> simp [List.length_pos]

/-- Claim C2: for every input bundle the returned `banners` list has at most
8 entries; banners appear in the fixed rule-priority order abnormal labs →
abnormal vitals → severe allergies → acute utilization → non-final results →
chronic burden (rule indices strictly increase along the list, so there is no
re-sorting by severity and each rule contributes at most one banner); and a
rule's banner is present exactly when its trigger condition holds. -/
theorem banners_cap_and_order (env : Env) (bundle : J) (incl : Bool) :
    ((buildInsightsCore env bundle incl).banners).length ≤ 8 ∧
    ((buildInsightsCore env bundle incl).banners).Pairwise
      (fun a b => a.rule.idx < b.rule.idx) ∧
    ((∃ b ∈ (buildInsightsCore env bundle incl).banners, b.rule = .abnormalLabs) ↔
      abnormalLabsOf env (resourcesOf env bundle) ≠ []) ∧
    ((∃ b ∈ (buildInsightsCore env bundle incl).banners, b.rule = .abnormalVitals) ↔
      abnormalVitalsOf env (resourcesOf env bundle) ≠ []) ∧
    ((∃ b ∈ (buildInsightsCore env bundle incl).banners, b.rule = .severeAllergies) ↔
      severeAllergiesOf env (resourcesOf env bundle) ≠ []) ∧
    ((∃ b ∈ (buildInsightsCore env bundle incl).banners, b.rule = .acuteUtilization) ↔
      recentAcuteEncountersOf env (resourcesOf env bundle) ≠ []) ∧
    ((∃ b ∈ (buildInsightsCore env bundle incl).banners, b.rule = .nonFinalResults) ↔
      nonFinalObservationsOf env (resourcesOf env bundle) ≠ []) ∧
    ((∃ b ∈ (buildInsightsCore env bundle incl).banners, b.rule = .chronicBurden) ↔
      (chronicProblemsOf env (resourcesOf env bundle) ≠ [] ∨
        chronicMedsOf env (resourcesOf env bundle) ≠ [])) := by
  rw [buildInsightsCore_banners]
  exact ⟨le_trans (bannersPreOf_length_le_six env _) (by omega),
    bannersPreOf_rules_strict_mono env _,
    bannersPreOf_rule_mem env (resourcesOf env bundle) .abnormalLabs,
    bannersPreOf_rule_mem env (resourcesOf env bundle) .abnormalVitals,
    bannersPreOf_rule_mem env (resourcesOf env bundle) .severeAllergies,
    bannersPreOf_rule_mem env (resourcesOf env bundle) .acuteUtilization,
    bannersPreOf_rule_mem env (resourcesOf env bundle) .nonFinalResults,
    bannersPreOf_rule_mem env (resourcesOf env bundle) .chronicBurden⟩

/-- Claim C9: each of the six rules appends at most one banner, so the banner
block never exceeds 6 entries; the documented cap of 8 is never reached and
the final `slice(0, 8)` truncates nothing. -/
theorem banners_at_most_six (env : Env) (bundle : J) (incl : Bool) :
    (bannersPreOf env (resourcesOf env bundle)).length ≤ 6 ∧
    (bannersPreOf env (resourcesOf env bundle)).take 8 =
      bannersPreOf env (resourcesOf env bundle) ∧
    (buildInsightsCore env bundle incl).banners =
      bannersPreOf env (resourcesOf env bundle) :=
  ⟨bannersPreOf_length_le_six env _, bannersPreOf_take_eight env _,
    buildInsightsCore_banners env bundle incl⟩

theorem mem_ite_singleton {c : Prop} [Decidable c] {x b : Banner}
    (h : b ∈ (if c then [x] else [])) : c ∧ b = x := by
  split_ifs at h with hc
  · exact ⟨hc, by simpa using h⟩
  · simp at h

/-- The only banner tagged `nonFinalResults` is the one built by rule 5 from
the non-final observation list, and its presence requires that list to be
non-empty. -/
theorem bannersPreOf_nonfinal_eq (env : Env) (m : List (String × J)) :
    ∀ b ∈ bannersPreOf env m, b.rule = .nonFinalResults →
      0 < (nonFinalObservationsOf env m).length ∧
        b = mkNonFinalBanner env (nonFinalObservationsOf env m) := by
  intro b hb hrule
  rw [bannersPreOf_characterization] at hb
  simp only [List.mem_append] at hb
  rcases hb with ((((h | h) | h) | h) | h) | h
  · obtain ⟨_, hbe⟩ := mem_ite_singleton h
    rw [hbe, mkAbnormalLabsBanner_rule] at hrule
    exact absurd hrule (by simp)
  · obtain ⟨_, hbe⟩ := mem_ite_singleton h
    rw [hbe, mkAbnormalVitalsBanner_rule] at hrule
    exact absurd hrule (by simp)
  · obtain ⟨_, hbe⟩ := mem_ite_singleton h
    rw [hbe, mkSevereAllergiesBanner_rule] at hrule
    exact absurd hrule (by simp)
  · obtain ⟨_, hbe⟩ := mem_ite_singleton h
    rw [hbe, mkAcuteBanner_rule] at hrule
    exact absurd hrule (by simp)
  · exact ⟨(mem_ite_singleton h).1, (mem_ite_singleton h).2⟩
  · obtain ⟨_, hbe⟩ := mem_ite_singleton h
    rw [hbe, mkChronicBanner_rule] at hrule
    exact absurd hrule (by simp)

/-- A trivial oracle environment for concrete counterexamples and witnesses:
every date string is unparsable and numbers render as the empty string. -/
def envNone : Env :=
  { dp := fun _ => none, now := 0, numStr := fun _ => "" }

/-- A bundle holding one lab-classified Observation whose status is the
capitalised string `"Final"`. -/
def bundleFinal : J :=
  .jobj [("resourceType", .jstr "Bundle"), ("entry", .jarr
    [.jobj [("resource", .jobj
      [("resourceType", .jstr "Observation"), ("id", .jstr "o1"),
       ("status", .jstr "Final"),
       ("category", .jarr
         [.jobj [("coding", .jarr [.jobj [("code", .jstr "laboratory")]])]])])]])]

/-- Modelled from claim C6's words: some lab- or vital-classified Observation
in the record map has a status that is present and not exactly `"final"`. -/
def nonFinalClaimTrigger (env : Env) (m : List (String × J)) : Bool :=
  ((valuesOf m).filter (fun r =>
    jIsStr (jGet r "resourceType") "Observation" && jTruthy (jGet r "id") &&
      (isLabObservation env (some r) || isVitalObservation env (some r)))).any
    (fun obs =>
      match observationStatus env (some obs) with
      | some s => s != "final"
      | none => false)

/-- Claim C6, counterexample: a lab Observation with status `"Final"` is
"present and not exactly \"final\"", so the claim predicts a non-final
banner, but the code lowercases the status before comparing and appends no
banner at all. -/
theorem non_final_case_counterexample :
    nonFinalClaimTrigger envNone (resourcesOf envNone bundleFinal) = true ∧
    (buildInsightsCore envNone bundleFinal true).banners = [] :=
  ⟨rfl, rfl⟩

/-- Claim C6, amended: an info-severity non-final-results banner is appended
if and only if some lab- or vital-classified Observation in the record map
has a status that is present and whose lowercased form differs from
`"final"`; the banner's title counts those observations and its detail cites
the first such observation's label and status. -/
theorem non_final_banner_iff (env : Env) (bundle : J) (incl : Bool) :
    ((∃ b ∈ (buildInsightsCore env bundle incl).banners, b.rule = .nonFinalResults) ↔
      nonFinalObservationsOf env (resourcesOf env bundle) ≠ []) ∧
    (∀ b ∈ (buildInsightsCore env bundle incl).banners, b.rule = .nonFinalResults →
      b.severity = .info ∧
      b.title = toString (nonFinalObservationsOf env (resourcesOf env bundle)).length ++
        " observation" ++
        (if (nonFinalObservationsOf env (resourcesOf env bundle)).length > 1
          then "s are" else " is") ++ " not final" ∧
      (∃ top rest, nonFinalObservationsOf env (resourcesOf env bundle) = top :: rest ∧
        b.detail = some (codeLabel (jGet top "code") "Observation" ++ " • status " ++
          ((observationStatus env (some top)).getD "unknown")) ∧
        b.occurredAt = dateValue (some top) ∧
        b.evidence = [{ resourceType := "Observation", id := evidId top }])) := by
  constructor
  · rw [buildInsightsCore_banners]
    exact bannersPreOf_rule_mem env (resourcesOf env bundle) .nonFinalResults
  · intro b hb hrule
    rw [buildInsightsCore_banners] at hb
    obtain ⟨hpos, hbe⟩ := bannersPreOf_nonfinal_eq env (resourcesOf env bundle) b hb hrule
    cases hnf : nonFinalObservationsOf env (resourcesOf env bundle) with
    | nil => rw [hnf] at hpos; simp at hpos
    | cons top rest =>
        rw [hnf] at hbe
        subst hbe
        refine ⟨rfl, ?_, top, rest, rfl, ?_, ?_, ?_⟩
        · simp [mkNonFinalBanner, hnf]
        · rfl
        · rfl
        · rfl

/-! ## Claim C10: the null guard at the boundary -/

/-- Claim C10: `buildInsights` reads `bundle.entry` unguarded, so a null or
undefined bundle argument throws a `TypeError` rather than degrading to an
empty summary; the HTTP boundary never lets that happen because it answers
400 whenever `body.bundle?.resourceType` is not exactly `"Bundle"` (which
covers an absent, null or falsy bundle), and only a truthy object bundle
tagged `"Bundle"` reaches the core, which it does with
`includeResources: true`. -/
theorem handler_null_guard (env : Env) (body : J) :
    (buildInsights env none true = .error .typeError) ∧
    (buildInsights env (some .jnull) true = .error .typeError) ∧
    (jIsStr (jGetO (jGet body "bundle") "resourceType") "Bundle" = false →
      handler env body =
        { statusCode := 400, body := .errMsg "bundle (FHIR Bundle) is required" }) ∧
    (∀ b : J, jGet body "bundle" = some b →
      jIsStr (jGet b "resourceType") "Bundle" = true →
      handler env body =
        { statusCode := 200, body := .dto (buildInsightsCore env b true) }) := by
  refine ⟨rfl, rfl, ?_, ?_⟩
  · intro h
    unfold handler
    dsimp only
    have : (!(jTruthy (jGet body "bundle")) ||
        !(jIsStr (jGetO (jGet body "bundle") "resourceType") "Bundle")) = true := by
      rw [h]
      simp
    rw [this]
    simp
  · intro b hget htag
    have hobj : ∃ fs, b = .jobj fs := by
      cases b with
      | jobj fs => exact ⟨fs, rfl⟩
      | jnull => simp [jIsStr, jGet] at htag
      | jbool x => simp [jIsStr, jGet] at htag
      | jnum x => simp [jIsStr, jGet] at htag
      | jstr x => simp [jIsStr, jGet] at htag
      | jarr x => simp [jIsStr, jGet] at htag
    obtain ⟨fs, hfs⟩ := hobj
    unfold handler
    dsimp only
    have htr : jTruthy (jGet body "bundle") = true := by
      rw [hget, hfs]
      rfl
    have hchain : jGetO (jGet body "bundle") "resourceType" = jGet b "resourceType" := by
      rw [hget]
      rfl
    have hcond : (!(jTruthy (jGet body "bundle")) ||
        !(jIsStr (jGetO (jGet body "bundle") "resourceType") "Bundle")) = false := by
      rw [htr, hchain, htag]
      rfl
    rw [hcond]
    simp only [Bool.false_eq_true, if_false]
    rw [hget, hfs]
    rfl

/-- Witness for `handler_null_guard` at concrete inputs: an empty body is
rejected with 400, and a body holding a `"Bundle"`-tagged object reaches the
core with a 200. -/
theorem handler_null_guard_witness :
    buildInsights envNone none true = .error .typeError ∧
    handler envNone (.jobj []) =
      { statusCode := 400, body := .errMsg "bundle (FHIR Bundle) is required" } ∧
    handler envNone (.jobj [("bundle", .jobj [("resourceType", .jstr "Bundle")])]) =
      { statusCode := 200,
        body := .dto (buildInsightsCore envNone
          (.jobj [("resourceType", .jstr "Bundle")]) true) } :=
  ⟨(handler_null_guard envNone (.jobj [])).1,
   (handler_null_guard envNone (.jobj [])).2.2.1 rfl,
   (handler_null_guard envNone
      (.jobj [("bundle", .jobj [("resourceType", .jstr "Bundle")])])).2.2.2
      (.jobj [("resourceType", .jstr "Bundle")]) rfl rfl⟩

/-! ## Claim C3: the record-extraction walk, on an explicit heap

`extractResources` (lines 27-57) keeps a `seen` set keyed by reference
identity.  Reference identity is invisible in a tree of values, so this model
represents the object graph explicitly: a heap of nodes addressed by index,
where primitives are stored inline and object/array children are references.
Two structurally equal nodes at different addresses are distinct, exactly as
two equal JavaScript objects are. -/

namespace Extract

inductive JPrim where
  | pnull
  | pbool (b : Bool)
  | pnum (q : Rat)
  | pstr (s : String)
  deriving DecidableEq, Repr

/-- A field or element value: an inline primitive or a reference to a heap
node.  `typeof v === "object" && v` holds exactly for references. -/
inductive HVal where
  | prim (p : JPrim)
  | ref (a : Nat)
  deriving DecidableEq, Repr

inductive HNode where
  | arr (elems : List HVal)
  | obj (fields : List (String × HVal))
  deriving DecidableEq, Repr

structure Heap where
  nodes : List HNode

def fieldVal (fs : List (String × HVal)) (name : String) : Option HVal :=
  (fs.find? (fun kv => kv.1 == name)).map (fun kv => kv.2)

/-- `typeof node.resourceType === "string" && typeof node.id === "string"`
(line 40). -/
def isRecordFields (fs : List (String × HVal)) : Bool :=
  (match fieldVal fs "resourceType" with
   | some (.prim (.pstr _)) => true
   | _ => false) &&
  (match fieldVal fs "id" with
   | some (.prim (.pstr _)) => true
   | _ => false)

/-- `node.resource && typeof node.resource === "object"` (line 45): the
`resource` field when it references a heap node (objects and arrays; `null`
is a primitive and fails the truthiness test). -/
def resourceRef (fs : List (String × HVal)) : Option Nat :=
  match fieldVal fs "resource" with
  | some (.ref a) => some a
  | _ => none

structure WalkSt where
  visited : List Nat
  out : List Nat
  deriving DecidableEq, Repr

/-- The recursive `walk` (lines 31-53) with a recursion-depth budget: skip
non-nodes and already-visited addresses, mark the address visited, then walk
array items; collect a record node without walking its descendants; unwrap an
object-valued `resource` field; else walk all object-valued fields in order.
Each nesting level marks a previously-unvisited address, so the depth never
exceeds `h.nodes.length + 1` and that budget never runs out. -/
def walk1 (h : Heap) : Nat → Nat → WalkSt → WalkSt
  | 0, _, st => st
  | fuel + 1, a, st =>
      match h.nodes.get? a with
      | none => st
      | some n =>
          if st.visited.contains a then st
          else
            let st1 : WalkSt := ⟨a :: st.visited, st.out⟩
            match n with
            | .arr elems =>
                elems.foldl (fun acc v =>
                  match v with
                  | .prim _ => acc
                  | .ref b => walk1 h fuel b acc) st1
            | .obj fs =>
                if isRecordFields fs then ⟨st1.visited, st1.out ++ [a]⟩
                else
                  match resourceRef fs with
                  | some r => walk1 h fuel r st1
                  | none =>
                      fs.foldl (fun acc kv =>
                        match kv.2 with
                        | .prim _ => acc
                        | .ref b => walk1 h fuel b acc) st1

/-- `extractResources` (lines 27-57): the walk from the input address with an
empty state. -/
def extractResources (h : Heap) (root : Nat) : List Nat :=
  (walk1 h (h.nodes.length + 1) root ⟨[], []⟩).out

/-- The address holds a record node. -/
def isRecAddr (h : Heap) (a : Nat) : Bool :=
  match h.nodes.get? a with
  | some (.obj fs) => isRecordFields fs
  | _ => false

/-- The invariant the walk maintains: collected addresses are distinct,
already visited, and hold record nodes. -/
def WalkInv (h : Heap) (st : WalkSt) : Prop :=
  st.out.Nodup ∧ ∀ a ∈ st.out, a ∈ st.visited ∧ isRecAddr h a = true

theorem walk1_inv (h : Heap) :
    ∀ (fuel a : Nat) (st : WalkSt),
      st.visited ⊆ (walk1 h fuel a st).visited ∧
      (WalkInv h st → WalkInv h (walk1 h fuel a st)) := by
  intro fuel
  induction fuel with
  | zero => intro a st; exact ⟨fun x hx => hx, fun hI => hI⟩
  | succ fuel ih =>
      intro addr st
      have haux : ∀ (elems : List HVal) (st0 : WalkSt),
          st0.visited ⊆ (elems.foldl (fun acc v =>
            match v with
            | .prim _ => acc
            | .ref b => walk1 h fuel b acc) st0).visited ∧
          (WalkInv h st0 → WalkInv h (elems.foldl (fun acc v =>
            match v with
            | .prim _ => acc
            | .ref b => walk1 h fuel b acc) st0)) := by
        intro elems
        induction elems with
        | nil => intro st0; exact ⟨fun x hx => hx, fun hI => hI⟩
        | cons v vs ihv =>
            intro st0
            cases v with
            | prim p => exact ihv st0
            | ref b =>
                obtain ⟨hsub1, hinv1⟩ := ih b st0
                obtain ⟨hsub2, hinv2⟩ := ihv (walk1 h fuel b st0)
                exact ⟨fun x hx => hsub2 (hsub1 hx), fun hI => hinv2 (hinv1 hI)⟩
      have haux2 : ∀ (fs : List (String × HVal)) (st0 : WalkSt),
          st0.visited ⊆ (fs.foldl (fun acc kv =>
            match kv.2 with
            | .prim _ => acc
            | .ref b => walk1 h fuel b acc) st0).visited ∧
          (WalkInv h st0 → WalkInv h (fs.foldl (fun acc kv =>
            match kv.2 with
            | .prim _ => acc
            | .ref b => walk1 h fuel b acc) st0)) := by
        intro fs
        induction fs with
        | nil => intro st0; exact ⟨fun x hx => hx, fun hI => hI⟩
        | cons kv kvs ihv =>
            intro st0
            cases hk : kv.2 with
            | prim p =>
                have := ihv st0
                simpa [hk] using this
            | ref b =>
                obtain ⟨hsub1, hinv1⟩ := ih b st0
                obtain ⟨hsub2, hinv2⟩ := ihv (walk1 h fuel b st0)
                refine ⟨?_, ?_⟩
                · simp only [List.foldl, hk]
                  exact fun x hx => hsub2 (hsub1 hx)
                · simp only [List.foldl, hk]
                  exact fun hI => hinv2 (hinv1 hI)
      unfold walk1
      cases hn : h.nodes.get? addr with
      | none => exact ⟨fun x hx => hx, fun hI => hI⟩
      | some n =>
          by_cases hv : st.visited.contains addr = true
          · rw [hv]
            simp only [if_true]
            exact ⟨fun x hx => hx, fun hI => hI⟩
          · have hv' : st.visited.contains addr = false := by simpa using hv
            rw [hv']
            simp only [Bool.false_eq_true, if_false]
            have hsub0 : st.visited ⊆ addr :: st.visited := fun x hx =>
              List.mem_cons_of_mem addr hx
            have hnotmem : addr ∉ st.visited := by
              intro hmem
              rw [List.contains_eq_any_beq] at hv'
              have : st.visited.any (fun x => addr == x) = true := by
                apply List.any_eq_true.mpr
                exact ⟨addr, hmem, by simp⟩
              rw [this] at hv'
              exact Bool.noConfusion hv'
            have hinv0 : WalkInv h st → WalkInv h ⟨addr :: st.visited, st.out⟩ := by
              rintro ⟨hnd, hmem⟩
              exact ⟨hnd, fun x hx =>
                ⟨List.mem_cons_of_mem addr (hmem x hx).1, (hmem x hx).2⟩⟩
            cases n with
            | arr elems =>
                dsimp only
                obtain ⟨hs, hi⟩ := haux elems ⟨addr :: st.visited, st.out⟩
                exact ⟨fun x hx => hs (hsub0 hx), fun hI => hi (hinv0 hI)⟩
            | obj fs =>
                dsimp only
                by_cases hr : isRecordFields fs = true
                · rw [hr]
                  simp only [if_true]
                  refine ⟨hsub0, ?_⟩
                  rintro ⟨hnd, hmem⟩
                  refine ⟨?_, ?_⟩
                  · have hanotin : addr ∉ st.out := fun hmem2 =>
                      hnotmem (hmem addr hmem2).1
                    simpa [List.nodup_append] using ⟨hnd, hanotin⟩
                  · intro x hx
                    rcases List.mem_append.mp hx with hx1 | hx2
                    · exact ⟨List.mem_cons_of_mem addr (hmem x hx1).1, (hmem x hx1).2⟩
                    · have hxa : x = addr := by simpa using hx2
                      rw [hxa]
                      refine ⟨List.mem_cons_self addr _, ?_⟩
                      unfold isRecAddr
                      rw [hn]
                      exact hr
                · have hr' : isRecordFields fs = false := by simpa using hr
                  rw [hr']
                  simp only [Bool.false_eq_true, if_false]
                  cases hres : resourceRef fs with
                  | some r =>
                      obtain ⟨hs, hi⟩ := ih r ⟨addr :: st.visited, st.out⟩
                      exact ⟨fun x hx => hs (hsub0 hx), fun hI => hi (hinv0 hI)⟩
                  | none =>
                      obtain ⟨hs, hi⟩ := haux2 fs ⟨addr :: st.visited, st.out⟩
                      exact ⟨fun x hx => hs (hsub0 hx), fun hI => hi (hinv0 hI)⟩

/-- Model of the map build (lines 423-425) over collected addresses: the
record's key `` `${resourceType}/${id}` `` when both are truthy (non-empty)
strings. -/
def recKey (h : Heap) (a : Nat) : Option String :=
  match h.nodes.get? a with
  | some (.obj fs) =>
      match fieldVal fs "resourceType", fieldVal fs "id" with
      | some (.prim (.pstr t)), some (.prim (.pstr i)) =>
          if t ≠ "" ∧ i ≠ "" then some (t ++ "/" ++ i) else none
      | _, _ => none
  | _ => none

def upsertN (m : List (String × Nat)) (k : String) (a : Nat) : List (String × Nat) :=
  if m.any (fun kv => kv.1 == k) then
    m.map (fun kv => if kv.1 == k then (k, a) else kv)
  else m ++ [(k, a)]

def lookupN (m : List (String × Nat)) (k : String) : Option Nat :=
  (m.find? (fun kv => kv.1 == k)).map (fun kv => kv.2)

/-- The map build of lines 423-425: assign each keyed record in order. -/
def buildResourceMap (h : Heap) (l : List Nat) : List (String × Nat) :=
  l.foldl (fun acc a =>
    match recKey h a with
    | some k => upsertN acc k a
    | none => acc) []

/-- The claim's reading of the map: for a key, the LAST record with that key
in extraction order. -/
def lastValueFor (h : Heap) (l : List Nat) (k : String) : Option Nat :=
  l.foldl (fun acc a =>
    match recKey h a with
    | some kk => if kk == k then some a else acc
    | none => acc) none

theorem lookupN_cons (kv : String × Nat) (rest : List (String × Nat)) (k : String) :
    lookupN (kv :: rest) k = if kv.1 == k then some kv.2 else lookupN rest k := by
  unfold lookupN
  rw [List.find?]
  cases h : (kv.1 == k) <;> simp [h]

theorem lookupN_map_set (m : List (String × Nat)) (k : String) (a : Nat)
    (hany : m.any (fun kv => kv.1 == k) = true) :
    lookupN (m.map (fun kv => if kv.1 == k then (k, a) else kv)) k = some a := by
  induction m with
  | nil => simp at hany
  | cons kv kvs ih =>
      simp only [List.map_cons]
      by_cases hk : (kv.1 == k) = true
      · rw [if_pos hk, lookupN_cons]
        simp
      · have hk' : (kv.1 == k) = false := by simpa using hk
        rw [if_neg (by simp [hk']), lookupN_cons]
        simp only [hk', Bool.false_eq_true, if_false]
        simp only [List.any_cons, hk', Bool.false_or] at hany
        exact ih hany

theorem lookupN_append_single (m : List (String × Nat)) (k : String) (a : Nat)
    (hnone : m.any (fun kv => kv.1 == k) = false) :
    lookupN (m ++ [(k, a)]) k = some a := by
  induction m with
  | nil => simp [lookupN, List.find?]
  | cons kv kvs ih =>
      simp only [List.any_cons, Bool.or_eq_false_iff] at hnone
      rw [List.cons_append, lookupN_cons]
      simp only [hnone.1, Bool.false_eq_true, if_false]
      exact ih hnone.2

theorem lookupN_upsertN_self (m : List (String × Nat)) (k : String) (a : Nat) :
    lookupN (upsertN m k a) k = some a := by
  unfold upsertN
  cases hany : m.any (fun kv => kv.1 == k) with
  | true =>
      simp only [if_true]
      exact lookupN_map_set m k a hany
  | false =>
      simp only [Bool.false_eq_true, if_false]
      exact lookupN_append_single m k a hany

theorem lookupN_map_set_other (m : List (String × Nat)) (k' k : String) (a : Nat)
    (hne : (k' == k) = false) :
    lookupN (m.map (fun kv => if kv.1 == k' then (k', a) else kv)) k = lookupN m k := by
  induction m with
  | nil => rfl
  | cons kv kvs ih =>
      simp only [List.map_cons]
      by_cases hk : (kv.1 == k') = true
      · rw [if_pos hk, lookupN_cons, lookupN_cons]
        have hkv : kv.1 = k' := eq_of_beq hk
        rw [hkv]
        simp only [hne, Bool.false_eq_true, if_false]
        exact ih
      · have hk' : (kv.1 == k') = false := by simpa using hk
        rw [if_neg (by simp [hk']), lookupN_cons, lookupN_cons]
        cases ht : (kv.1 == k) with
        | true => simp
        | false => simpa using ih

theorem lookupN_append_single_other (m : List (String × Nat)) (k' k : String) (a : Nat)
    (hne : (k' == k) = false) :
    lookupN (m ++ [(k', a)]) k = lookupN m k := by
  induction m with
  | nil => simp [lookupN, List.find?, hne]
  | cons kv kvs ih =>
      rw [List.cons_append, lookupN_cons, lookupN_cons]
      cases ht : (kv.1 == k) with
      | true => simp
      | false => simpa using ih

theorem lookupN_upsertN_other (m : List (String × Nat)) (k' k : String) (a : Nat)
    (hne : (k' == k) = false) :
    lookupN (upsertN m k' a) k = lookupN m k := by
  unfold upsertN
  cases hany : m.any (fun kv => kv.1 == k') with
  | true =>
      simp only [if_true]
      exact lookupN_map_set_other m k' k a hne
  | false =>
      simp only [Bool.false_eq_true, if_false]
      exact lookupN_append_single_other m k' k a hne

theorem lookupN_buildResourceMap_aux (h : Heap) (l : List Nat) :
    ∀ (m : List (String × Nat)) (k : String),
      lookupN (l.foldl (fun acc a =>
        match recKey h a with
        | some kk => upsertN acc kk a
        | none => acc) m) k =
      l.foldl (fun acc a =>
        match recKey h a with
        | some kk => if kk == k then some a else acc
        | none => acc) (lookupN m k) := by
  induction l with
  | nil => intro m k; rfl
  | cons a l ih =>
      intro m k
      simp only [List.foldl]
      cases hk : recKey h a with
      | none => exact ih m k
      | some kk =>
          rw [ih (upsertN m kk a) k]
          cases hbeq : (kk == k) with
          | true =>
              have : lookupN (upsertN m kk a) k = some a := by
                have hkk : kk = k := eq_of_beq hbeq
                subst hkk
                exact lookupN_upsertN_self m kk a
              rw [this]
              simp [hbeq]
          | false =>
              rw [lookupN_upsertN_other m kk k a hbeq]
              simp [hbeq]

/-- Claim C3: (i) every collected address holds a record node (string-typed
`resourceType` and `id`), (ii) visited-by-identity skipping means no address
is collected twice, (iii) a record node's walk collects exactly the node and
walks none of its descendants, (iv) an already-visited address is skipped
outright, and (v) the record map binds each `"{recordType}/{id}"` key to the
last record with that key in extraction order (later records overwrite
earlier ones). -/
theorem extract_walk_properties (h : Heap) (root : Nat) :
    (extractResources h root).Nodup ∧
    (∀ a ∈ extractResources h root, isRecAddr h a = true) ∧
    (∀ (fuel a : Nat) (st : WalkSt) (fs : List (String × HVal)),
      h.nodes.get? a = some (.obj fs) → st.visited.contains a = false →
      isRecordFields fs = true →
      walk1 h (fuel + 1) a st = ⟨a :: st.visited, st.out ++ [a]⟩) ∧
    (∀ (fuel a : Nat) (st : WalkSt), st.visited.contains a = true →
      walk1 h fuel a st = st) ∧
    (∀ (l : List Nat) (k : String),
      lookupN (buildResourceMap h l) k = lastValueFor h l k) := by
  have hinv := (walk1_inv h (h.nodes.length + 1) root ⟨[], []⟩).2
    ⟨List.nodup_nil, by intro a ha; cases ha⟩
  refine ⟨hinv.1, fun a ha => (hinv.2 a ha).2, ?_, ?_, ?_⟩
  · intro fuel a st fs hn hv hr
    unfold walk1
    rw [hn]
    dsimp only
    rw [hv]
    simp only [Bool.false_eq_true, if_false]
    rw [hr]
    simp
  · intro fuel a st hv
    cases fuel with
    | zero => rfl
    | succ fuel =>
        unfold walk1
        cases hn : h.nodes.get? a with
        | none => rfl
        | some n =>
            dsimp only
            rw [hv]
            simp
  · intro l k
    exact lookupN_buildResourceMap_aux h l [] k

/-- Witness for `extract_walk_properties`: a two-node heap whose nodes share
the record key `"A/1"`; the record-leaf step collects node 0 without walking
its child reference, the visited-skip leaves the state unchanged, and the
key resolves to the later record. -/
theorem extract_walk_properties_witness :
    walk1 ⟨[.obj [("resourceType", .prim (.pstr "A")), ("id", .prim (.pstr "1")),
              ("child", .ref 1)],
            .obj [("resourceType", .prim (.pstr "A")), ("id", .prim (.pstr "1"))]]⟩
        1 0 ⟨[], []⟩ = ⟨[0], [0]⟩ ∧
    walk1 ⟨[.obj [("resourceType", .prim (.pstr "A")), ("id", .prim (.pstr "1")),
              ("child", .ref 1)],
            .obj [("resourceType", .prim (.pstr "A")), ("id", .prim (.pstr "1"))]]⟩
        5 0 ⟨[0], []⟩ = ⟨[0], []⟩ ∧
    lookupN (buildResourceMap
      ⟨[.obj [("resourceType", .prim (.pstr "A")), ("id", .prim (.pstr "1")),
              ("child", .ref 1)],
        .obj [("resourceType", .prim (.pstr "A")), ("id", .prim (.pstr "1"))]]⟩
      [0, 1]) "A/1" =
      lastValueFor
        ⟨[.obj [("resourceType", .prim (.pstr "A")), ("id", .prim (.pstr "1")),
                ("child", .ref 1)],
          .obj [("resourceType", .prim (.pstr "A")), ("id", .prim (.pstr "1"))]]⟩
        [0, 1] "A/1" :=
  ⟨(extract_walk_properties _ 0).2.2.1 0 0 ⟨[], []⟩
      [("resourceType", .prim (.pstr "A")), ("id", .prim (.pstr "1")), ("child", .ref 1)]
      rfl rfl rfl,
   (extract_walk_properties _ 0).2.2.2.1 5 0 ⟨[0], []⟩ rfl,
   (extract_walk_properties _ 0).2.2.2.2 [0, 1] "A/1"⟩

end Extract

/-! ## Claim C8: evidence completeness -/

/-- All evidence references carried by a summary: category rows, the
utilization block, timeline events, and banners. -/
def allEvidence (dto : DTO) : List EvidenceRef :=
  dto.snapshot.problems.flatMap (fun r => r.evidence) ++
  dto.snapshot.procedures.flatMap (fun r => r.evidence) ++
  dto.snapshot.meds.flatMap (fun r => r.evidence) ++
  dto.snapshot.immunizations.flatMap (fun r => r.evidence) ++
  dto.snapshot.allergies.flatMap (fun r => r.evidence) ++
  dto.snapshot.socialHistory.flatMap (fun r => r.evidence) ++
  dto.snapshot.mentalStatus.flatMap (fun r => r.evidence) ++
  dto.snapshot.vitals.flatMap (fun r => r.evidence) ++
  dto.snapshot.labs.flatMap (fun r => r.evidence) ++
  dto.snapshot.utilization.evidence ++
  dto.timeline.flatMap (fun e => e.evidence) ++
  dto.banners.flatMap (fun b => b.evidence)

/-- The key `"{recordType}/{id}"` of an evidence reference is bound in the
record map. -/
def keyPresent (m : List (String × J)) (e : EvidenceRef) : Bool :=
  m.any (fun kv => kv.1 == e.resourceType ++ "/" ++ e.id)

/-- Every evidence reference of the summary resolves in its record map. -/
def evidenceComplete (dto : DTO) : Bool :=
  (allEvidence dto).all (fun e => keyPresent (dto.resources.getD []) e)

/-- The string contains no `/` (record types never do in FHIR, but the input
is unconstrained). -/
def noSlash (s : String) : Bool :=
  s.toList.all (fun c => c ≠ '/')

/-- Every record in the map has a slash-free `resourceType`. -/
def slashFreeTypes (m : List (String × J)) : Bool :=
  m.all (fun kv =>
    match jStr? (jGet kv.2 "resourceType") with
    | some t => noSlash t
    | none => true)

/-- A map entry that sits under its own record's `"{type}/{id}"` key. -/
def WellKeyed (kv : String × J) : Prop :=
  ∃ t i, jGet kv.2 "resourceType" = some (.jstr t) ∧
    jGet kv.2 "id" = some (.jstr i) ∧ kv.1 = t ++ "/" ++ i

/-- Every value the walk collects is a record node. -/
theorem treeWalkF_sound :
    ∀ (fuel : Nat) (j : J), ∀ r ∈ treeWalkF fuel j, isRecordNode r = true := by
  intro fuel
  induction fuel with
  | zero => intro j r hr; cases hr
  | succ fuel ih =>
      intro j r hr
      cases j with
      | jnull => cases hr
      | jbool b => cases hr
      | jnum q => cases hr
      | jstr s => cases hr
      | jarr xs =>
          simp only [treeWalkF, List.mem_flatMap] at hr
          obtain ⟨x, _, hx⟩ := hr
          exact ih x r hx
      | jobj fs =>
          simp only [treeWalkF] at hr
          by_cases hrec : isRecordNode (.jobj fs) = true
          · rw [hrec] at hr
            simp only [if_true, List.mem_singleton] at hr
            rw [hr]
            exact hrec
          · have hrec' : isRecordNode (.jobj fs) = false := by simpa using hrec
            rw [hrec'] at hr
            simp only [Bool.false_eq_true, if_false] at hr
            cases hres : jGet (.jobj fs) "resource" with
            | none =>
                rw [hres] at hr
                simp only [List.mem_flatMap] at hr
                obtain ⟨kv, _, hkv⟩ := hr
                by_cases hc : isContainer kv.2 = true
                · rw [hc] at hkv
                  simp only [if_true] at hkv
                  exact ih kv.2 r hkv
                · have hc' : isContainer kv.2 = false := by simpa using hc
                  rw [hc'] at hkv
                  simp at hkv
            | some rr =>
                rw [hres] at hr
                dsimp only at hr
                by_cases hc : isContainer rr = true
                · rw [hc] at hr
                  simp only [if_true] at hr
                  exact ih rr r hr
                · have hc' : isContainer rr = false := by simpa using hc
                  rw [hc'] at hr
                  simp only [Bool.false_eq_true, if_false, List.mem_flatMap] at hr
                  obtain ⟨kv, _, hkv⟩ := hr
                  by_cases hck : isContainer kv.2 = true
                  · rw [hck] at hkv
                    simp only [if_true] at hkv
                    exact ih kv.2 r hkv
                  · have hck' : isContainer kv.2 = false := by simpa using hck
                    rw [hck'] at hkv
                    simp at hkv

theorem jToString_jstr (env : Env) (s : String) : jToString env (.jstr s) = s := by
  rfl

theorem upsert_mem {m : List (String × J)} {k : String} {v : J} :
    ∀ kv ∈ upsert m k v, kv ∈ m ∨ kv = (k, v) := by
  intro kv hkv
  unfold upsert at hkv
  split_ifs at hkv with hany
  · obtain ⟨x, hx, hxe⟩ := List.mem_map.mp hkv
    by_cases hxk : (x.1 == k) = true
    · rw [if_pos hxk] at hxe
      exact Or.inr hxe.symm
    · rw [if_neg hxk] at hxe
      exact Or.inl (hxe ▸ hx)
  · rcases List.mem_append.mp hkv with h | h
    · exact Or.inl h
    · exact Or.inr (by simpa using h)

theorem fold_insert_wellKeyed (env : Env) :
    ∀ (l : List J), (∀ r ∈ l, isRecordNode r = true) →
      ∀ (acc : List (String × J)), (∀ kv ∈ acc, WellKeyed kv) →
        ∀ kv ∈ l.foldl (resourceInsertStep env) acc, WellKeyed kv := by
  intro l
  induction l with
  | nil => intro _ acc hacc kv hkv; exact hacc kv hkv
  | cons r rs ih =>
      intro hl acc hacc kv hkv
      simp only [List.foldl] at hkv
      refine ih (fun x hx => hl x (List.mem_cons_of_mem r hx))
        (resourceInsertStep env acc r) ?_ kv hkv
      intro kv2 hkv2
      unfold resourceInsertStep at hkv2
      split_ifs at hkv2 with hguard
      · rcases upsert_mem kv2 hkv2 with h | h
        · exact hacc kv2 h
        · have hrec := hl r (List.mem_cons_self r rs)
          unfold isRecordNode at hrec
          rw [Bool.and_eq_true] at hrec
          obtain ⟨ht, hi⟩ := hrec
          obtain ⟨t, hts⟩ : ∃ t, jGet r "resourceType" = some (.jstr t) := by
            cases hg : jGet r "resourceType" with
            | none => rw [hg] at ht; simp [jStr?] at ht
            | some v =>
                cases v with
                | jstr s => exact ⟨s, rfl⟩
                | jnull => rw [hg] at ht; simp [jStr?] at ht
                | jbool x => rw [hg] at ht; simp [jStr?] at ht
                | jnum x => rw [hg] at ht; simp [jStr?] at ht
                | jarr x => rw [hg] at ht; simp [jStr?] at ht
                | jobj x => rw [hg] at ht; simp [jStr?] at ht
          obtain ⟨i, his⟩ : ∃ i, jGet r "id" = some (.jstr i) := by
            cases hg : jGet r "id" with
            | none => rw [hg] at hi; simp [jStr?] at hi
            | some v =>
                cases v with
                | jstr s => exact ⟨s, rfl⟩
                | jnull => rw [hg] at hi; simp [jStr?] at hi
                | jbool x => rw [hg] at hi; simp [jStr?] at hi
                | jnum x => rw [hg] at hi; simp [jStr?] at hi
                | jarr x => rw [hg] at hi; simp [jStr?] at hi
                | jobj x => rw [hg] at hi; simp [jStr?] at hi
          rw [h]
          refine ⟨t, i, hts, his, ?_⟩
          rw [hts, his]
          rfl
      · exact hacc kv2 hkv2

/-- Every entry of the record map sits under its own record's key. -/
theorem resourcesOf_wellKeyed (env : Env) (bundle : J) :
    ∀ kv ∈ resourcesOf env bundle, WellKeyed kv := by
  unfold resourcesOf
  refine fold_insert_wellKeyed env _ ?_ [] (fun kv hkv => absurd hkv (List.not_mem_nil kv))
  intro r hr
  exact treeWalkF_sound _ _ r hr

/-- A value of the map gives a present key for its own `(type, id)`. -/
theorem key_present_self (m : List (String × J))
    (hWK : ∀ kv ∈ m, WellKeyed kv) (v : J) (hv : v ∈ valuesOf m) :
    keyPresent m { resourceType := evidType v, id := evidId v } = true := by
  obtain ⟨kv, hkv, hkve⟩ := List.mem_map.mp hv
  obtain ⟨t, i, ht, hi, hk⟩ := hWK kv hkv
  unfold keyPresent
  apply List.any_eq_true.mpr
  refine ⟨kv, hkv, ?_⟩
  have hT : evidType v = t := by
    unfold evidType
    rw [← hkve, ht]
    rfl
  have hI : evidId v = i := by
    unfold evidId
    rw [← hkve, hi]
    rfl
  rw [hT, hI, hk]
  simp

/-- A value of the map with a specific string record type gives a present key
for that type and its id. -/
theorem key_present_typed (m : List (String × J))
    (hWK : ∀ kv ∈ m, WellKeyed kv) (v : J) (hv : v ∈ valuesOf m) (T : String)
    (hT : jIsStr (jGet v "resourceType") T = true) :
    keyPresent m { resourceType := T, id := evidId v } = true := by
  have hTv : evidType v = T := by
    unfold jIsStr at hT
    unfold evidType
    cases hg : jGet v "resourceType" with
    | none => rw [hg] at hT; simp at hT
    | some w =>
        cases w with
        | jstr s =>
            rw [hg] at hT
            simp only [jStr?, Option.getD]
            exact eq_of_beq hT
        | jnull => rw [hg] at hT; simp at hT
        | jbool x => rw [hg] at hT; simp at hT
        | jnum x => rw [hg] at hT; simp at hT
        | jarr x => rw [hg] at hT; simp at hT
        | jobj x => rw [hg] at hT; simp at hT
  rw [← hTv]
  exact key_present_self m hWK v hv

theorem noslash_list_inj :
    ∀ (a1 b1 a2 b2 : List Char), (∀ c ∈ a1, c ≠ '/') → (∀ c ∈ a2, c ≠ '/') →
      a1 ++ '/' :: b1 = a2 ++ '/' :: b2 → a1 = a2 ∧ b1 = b2 := by
  intro a1
  induction a1 with
  | nil =>
      intro b1 a2 b2 _ h2 heq
      cases a2 with
      | nil => simpa using heq
      | cons c a2' =>
          simp only [List.nil_append, List.cons_append, List.cons.injEq] at heq
          exact absurd heq.1.symm (h2 c (List.mem_cons_self c a2'))
  | cons c a1' ih =>
      intro b1 a2 b2 h1 h2 heq
      cases a2 with
      | nil =>
          simp only [List.cons_append, List.nil_append, List.cons.injEq] at heq
          exact absurd heq.1 (h1 c (List.mem_cons_self c a1'))
      | cons c2 a2' =>
          simp only [List.cons_append, List.cons.injEq] at heq
          obtain ⟨ha, hb⟩ := ih b1 a2' b2
            (fun x hx => h1 x (List.mem_cons_of_mem c hx))
            (fun x hx => h2 x (List.mem_cons_of_mem c2 hx)) heq.2
          exact ⟨by rw [heq.1, ha], hb⟩

theorem string_key_inj (t1 i1 t2 i2 : String)
    (h1 : noSlash t1 = true) (h2 : noSlash t2 = true)
    (heq : t1 ++ "/" ++ i1 = t2 ++ "/" ++ i2) : t1 = t2 ∧ i1 = i2 := by
  have hdata : t1.data ++ '/' :: i1.data = t2.data ++ '/' :: i2.data := by
    have := congrArg String.data heq
    simpa [String.data_append] using this
  have hns1 : ∀ c ∈ t1.data, c ≠ '/' := by
    intro c hc
    unfold noSlash at h1
    have := List.all_eq_true.mp h1 c hc
    simpa using this
  have hns2 : ∀ c ∈ t2.data, c ≠ '/' := by
    intro c hc
    unfold noSlash at h2
    have := List.all_eq_true.mp h2 c hc
    simpa using this
  obtain ⟨ha, hb⟩ := noslash_list_inj t1.data i1.data t2.data i2.data hns1 hns2 hdata
  exact ⟨String.ext ha, String.ext hb⟩

theorem mlookup_mem {m : List (String × J)} {k : String} {v : J}
    (h : mlookup m k = some v) : (k, v) ∈ m := by
  unfold mlookup at h
  cases hf : m.find? (fun kv => kv.1 == k) with
  | none => rw [hf] at h; exact Option.noConfusion h
  | some kv =>
      rw [hf] at h
      have hv : kv.2 = v := Option.some.inj h
      have hmem := List.mem_of_find?_eq_some hf
      have hp := List.find?_some hf
      have hk : kv.1 = k := eq_of_beq hp
      have : kv = (k, v) := by
        cases kv with
        | mk a b => simp_all
      rw [← this]
      exact hmem

/-- A successful `resources["Observation/" + oid]` lookup, under slash-free
record types, yields an Observation-typed record whose id is `oid`, and the
evidence key built from it is present. -/
theorem key_present_lookup (m : List (String × J))
    (hWK : ∀ kv ∈ m, WellKeyed kv) (hSF : slashFreeTypes m = true)
    (oid : String) (obs : J)
    (hlk : mlookup m ("Observation/" ++ oid) = some obs) :
    keyPresent m { resourceType := "Observation", id := evidId obs } = true := by
  have hmem := mlookup_mem hlk
  obtain ⟨t, i, ht, hi, hk⟩ := hWK _ hmem
  have hsf : noSlash t = true := by
    have := List.all_eq_true.mp hSF _ hmem
    simp only [ht, jStr?] at this
    exact this
  have hkey : t ++ "/" ++ i = "Observation" ++ "/" ++ oid := by
    rw [← hk]
    show ("Observation/" ++ oid : String) = "Observation" ++ "/" ++ oid
    apply String.ext
    simp [String.data_append]
  obtain ⟨hT, hI⟩ := string_key_inj t i "Observation" oid hsf (by decide) hkey
  unfold keyPresent
  apply List.any_eq_true.mpr
  refine ⟨("Observation/" ++ oid, obs), hmem, ?_⟩
  have hIe : evidId obs = i := by
    unfold evidId
    rw [hi]
    rfl
  rw [hIe, hI]
  apply beq_iff_eq.mpr
  apply String.ext
  simp [String.data_append]

theorem guard_split {a b : Bool} (h : ¬((!a || !b) = true)) : a = true ∧ b = true := by
  constructor
  · cases ha : a with
    | true => rfl
    | false => exact absurd (by rw [ha]; rfl) h
  · cases hb : b with
    | true => rfl
    | false => exact absurd (by rw [hb]; simp) h

theorem problemsPre_evidence (env : Env) (m : List (String × J))
    (hWK : ∀ kv ∈ m, WellKeyed kv) :
    ∀ p ∈ problemsPre env m, ∀ e ∈ p.evidence, keyPresent m e = true := by
  intro p hp e he
  unfold problemsPre at hp
  rw [mem_sortByDesc] at hp
  obtain ⟨v, hv, hpv⟩ := List.mem_flatMap.mp hp
  split_ifs at hpv with hguard
  · cases hpv
  · obtain ⟨hT, _⟩ := guard_split hguard
    rw [List.mem_singleton] at hpv
    subst hpv
    simp only [List.mem_singleton] at he
    subst he
    exact key_present_typed m hWK v hv "Condition" hT

theorem proceduresOf_evidence (env : Env) (m : List (String × J))
    (hWK : ∀ kv ∈ m, WellKeyed kv) :
    ∀ p ∈ proceduresOf env m, ∀ e ∈ p.evidence, keyPresent m e = true := by
  intro p hp e he
  unfold proceduresOf at hp
  rw [mem_sortByDesc] at hp
  obtain ⟨v, hv, hpv⟩ := List.mem_flatMap.mp hp
  split_ifs at hpv with hguard
  · cases hpv
  · obtain ⟨hT, _⟩ := guard_split hguard
    rw [List.mem_singleton] at hpv
    subst hpv
    simp only [List.mem_singleton] at he
    subst he
    exact key_present_typed m hWK v hv "Procedure" hT

theorem immunizationsOf_evidence (env : Env) (m : List (String × J))
    (hWK : ∀ kv ∈ m, WellKeyed kv) :
    ∀ p ∈ immunizationsOf env m, ∀ e ∈ p.evidence, keyPresent m e = true := by
  intro p hp e he
  unfold immunizationsOf at hp
  rw [mem_sortByDesc] at hp
  obtain ⟨v, hv, hpv⟩ := List.mem_flatMap.mp hp
  split_ifs at hpv with hguard
  · cases hpv
  · obtain ⟨hT, _⟩ := guard_split hguard
    rw [List.mem_singleton] at hpv
    subst hpv
    simp only [List.mem_singleton] at he
    subst he
    exact key_present_typed m hWK v hv "Immunization" hT

theorem allergiesPre_evidence (env : Env) (m : List (String × J))
    (hWK : ∀ kv ∈ m, WellKeyed kv) :
    ∀ p ∈ allergiesPre env m, ∀ e ∈ p.evidence, keyPresent m e = true := by
  intro p hp e he
  unfold allergiesPre at hp
  rw [mem_sortByDesc] at hp
  obtain ⟨v, hv, hpv⟩ := List.mem_flatMap.mp hp
  split_ifs at hpv with hguard
  · cases hpv
  · obtain ⟨hT, _⟩ := guard_split hguard
    rw [List.mem_singleton] at hpv
    subst hpv
    simp only [List.mem_singleton] at he
    subst he
    exact key_present_typed m hWK v hv "AllergyIntolerance" hT

theorem socialHistoryOf_evidence (env : Env) (m : List (String × J))
    (hWK : ∀ kv ∈ m, WellKeyed kv) :
    ∀ p ∈ socialHistoryOf env m, ∀ e ∈ p.evidence, keyPresent m e = true := by
  intro p hp e he
  unfold socialHistoryOf at hp
  rw [mem_sortByDesc] at hp
  obtain ⟨v, hv, hpv⟩ := List.mem_flatMap.mp hp
  split_ifs at hpv with hguard
  · cases hpv
  · rw [List.mem_singleton] at hpv
    subst hpv
    simp only [List.mem_singleton] at he
    subst he
    have hT : jIsStr (jGet v "resourceType") "Observation" = true := by
      cases ht : jIsStr (jGet v "resourceType") "Observation" with
      | true => rfl
      | false => exact absurd (by rw [ht]; rfl) hguard
    exact key_present_typed m hWK v hv "Observation" hT

theorem mentalStatusOf_evidence (env : Env) (m : List (String × J))
    (hWK : ∀ kv ∈ m, WellKeyed kv) :
    ∀ p ∈ mentalStatusOf env m, ∀ e ∈ p.evidence, keyPresent m e = true := by
  intro p hp e he
  unfold mentalStatusOf at hp
  rw [mem_sortByDesc] at hp
  obtain ⟨v, hv, hpv⟩ := List.mem_flatMap.mp hp
  split_ifs at hpv with hguard
  · cases hpv
  · rw [List.mem_singleton] at hpv
    subst hpv
    simp only [List.mem_singleton] at he
    subst he
    have hT : jIsStr (jGet v "resourceType") "Observation" = true := by
      cases ht : jIsStr (jGet v "resourceType") "Observation" with
      | true => rfl
      | false => exact absurd (by rw [ht]; rfl) hguard
    exact key_present_typed m hWK v hv "Observation" hT

theorem medsPre_evidence (env : Env) (m : List (String × J))
    (hWK : ∀ kv ∈ m, WellKeyed kv) :
    ∀ p ∈ medsPre env m, ∀ e ∈ p.evidence, keyPresent m e = true := by
  intro p hp e he
  unfold medsPre at hp
  rw [mem_sortByDesc] at hp
  obtain ⟨v, hv, hpv⟩ := List.mem_flatMap.mp hp
  split_ifs at hpv with hguard1 hguard2
  · cases hpv
  · cases hpv
  · rw [List.mem_singleton] at hpv
    subst hpv
    simp only [List.mem_singleton] at he
    subst he
    exact key_present_self m hWK v hv

theorem medsDedup_evidence (rows : List MedPre) :
    ∀ r ∈ medsDedup rows, ∃ p ∈ rows, r.evidence = p.evidence := by
  unfold medsDedup
  suffices h : ∀ (acc : List MedRow),
      (∀ r ∈ acc, ∃ p ∈ rows, r.evidence = p.evidence) →
      ∀ (l : List MedPre), (∀ p ∈ l, p ∈ rows) →
      ∀ r ∈ l.foldl (fun acc med =>
        if acc.any (fun mr => mr.text == med.text && mr.dosage == med.dosage &&
            mr.patientInstruction == med.patientInstruction) then acc
        else acc ++ [{ text := med.text, dosage := med.dosage,
                       patientInstruction := med.patientInstruction, status := med.status,
                       changed := med.changed, evidence := med.evidence }]) acc,
        ∃ p ∈ rows, r.evidence = p.evidence by
    intro r hr
    exact h [] (fun r hr => absurd hr (List.not_mem_nil r)) rows (fun p hp => hp) r hr
  intro acc hacc l
  induction l generalizing acc with
  | nil => intro _ r hr; exact hacc r hr
  | cons med meds ih =>
      intro hl r hr
      simp only [List.foldl] at hr
      refine ih _ ?_ (fun p hp => hl p (List.mem_cons_of_mem med hp)) r hr
      intro r2 hr2
      split_ifs at hr2 with hdup
      · exact hacc r2 hr2
      · rcases List.mem_append.mp hr2 with h | h
        · exact hacc r2 h
        · rw [List.mem_singleton] at h
          subst h
          exact ⟨med, hl med (List.mem_cons_self med meds), rfl⟩

theorem medsOf_evidence (env : Env) (m : List (String × J))
    (hWK : ∀ kv ∈ m, WellKeyed kv) :
    ∀ p ∈ medsOf env m, ∀ e ∈ p.evidence, keyPresent m e = true := by
  intro p hp e he
  obtain ⟨q, hq, hqe⟩ := medsDedup_evidence (medsPre env m) p hp
  rw [hqe] at he
  exact medsPre_evidence env m hWK q hq e he

theorem vitalsPre_evidence (env : Env) (m : List (String × J))
    (hWK : ∀ kv ∈ m, WellKeyed kv) :
    ∀ p ∈ vitalsPre env m, ∀ e ∈ p.evidence, keyPresent m e = true := by
  intro p hp e he
  unfold vitalsPre at hp
  rw [mem_sortByDesc] at hp
  obtain ⟨v, hv, hpv⟩ := List.mem_flatMap.mp hp
  split_ifs at hpv with hguard
  · cases hpv
  · rw [List.mem_singleton] at hpv
    subst hpv
    simp only [List.mem_singleton] at he
    subst he
    have hT : jIsStr (jGet v "resourceType") "Observation" = true := by
      cases ht : jIsStr (jGet v "resourceType") "Observation" with
      | true => rfl
      | false => exact absurd (by rw [ht]; rfl) hguard
    exact key_present_typed m hWK v hv "Observation" hT

theorem collapseSpec_evidence (L : List VitalPre) :
    ∀ r ∈ collapseSpec L, ∃ p ∈ L, r.evidence = p.evidence := by
  suffices h : ∀ (n : Nat) (L : List VitalPre), L.length ≤ n →
      ∀ r ∈ collapseSpec L, ∃ p ∈ L, r.evidence = p.evidence by
    exact h L.length L le_rfl
  intro n
  induction n with
  | zero =>
      intro L hL r hr
      have : L = [] := List.eq_nil_of_length_eq_zero (Nat.le_zero.mp hL)
      subst this
      rw [show collapseSpec [] = [] from by rw [collapseSpec]] at hr
      cases hr
  | succ n ih =>
      intro L hL r hr
      cases L with
      | nil =>
          rw [show collapseSpec [] = [] from by rw [collapseSpec]] at hr
          cases hr
      | cons c cs =>
          rw [collapseSpec] at hr
          rcases List.mem_cons.mp hr with h | h
          · exact ⟨c, List.mem_cons_self c cs, by rw [h]; rfl⟩
          · have hlen : (cs.filter (fun s =>
                !(c.code == s.code || c.label == s.label))).length ≤ n := by
              have := List.length_filter_le
                (fun s => !(c.code == s.code || c.label == s.label)) cs
              simp only [List.length_cons] at hL
              omega
            obtain ⟨p, hp, hpe⟩ := ih _ hlen r h
            exact ⟨p, List.mem_cons_of_mem c (List.mem_filter.mp hp).1, hpe⟩

theorem vitalsOf_evidence (env : Env) (m : List (String × J))
    (hWK : ∀ kv ∈ m, WellKeyed kv) :
    ∀ p ∈ vitalsOf env m, ∀ e ∈ p.evidence, keyPresent m e = true := by
  intro p hp e he
  unfold vitalsOf at hp
  rw [vitalsReduce_eq_collapseSpec] at hp
  obtain ⟨q, hq, hqe⟩ := collapseSpec_evidence (vitalsPre env m) p hp
  rw [hqe] at he
  exact vitalsPre_evidence env m hWK q hq e he

theorem labsPre_evidence (env : Env) (m : List (String × J))
    (hWK : ∀ kv ∈ m, WellKeyed kv) (hSF : slashFreeTypes m = true) :
    ∀ p ∈ labsPre env m, ∀ e ∈ p.evidence, keyPresent m e = true := by
  intro p hp e he
  unfold labsPre at hp
  rw [mem_sortByDesc] at hp
  obtain ⟨v, hv, hpv⟩ := List.mem_flatMap.mp hp
  split_ifs at hpv with hguard1 hguard2 hguard3
  · cases hpv
  · -- Observation branch
    rw [Bool.and_eq_true] at hguard2
    rw [List.mem_singleton] at hpv
    subst hpv
    simp only [List.mem_singleton] at he
    subst he
    exact key_present_typed m hWK v hv "Observation" hguard2.1
  · -- DiagnosticReport branch
    obtain ⟨resultRef, _, hrr⟩ := List.mem_flatMap.mp hpv
    cases href : refId (jGet resultRef "reference") (some "Observation") with
    | none => rw [href] at hrr; cases hrr
    | some oid =>
        rw [href] at hrr
        dsimp only at hrr
        cases hlk : mlookup m ("Observation/" ++ oid) with
        | none => rw [hlk] at hrr; cases hrr
        | some obs =>
            rw [hlk] at hrr
            dsimp only at hrr
            split_ifs at hrr with hconc
            · cases hrr
            · rw [List.mem_singleton] at hrr
              subst hrr
              simp only [List.mem_cons, List.mem_singleton] at he
              rcases he with he | he | he
              · subst he
                exact key_present_typed m hWK v hv "DiagnosticReport" hguard3
              · subst he
                exact key_present_lookup m hWK hSF oid obs hlk
              · cases he
  · cases hpv

theorem timelineOf_evidence (env : Env) (m : List (String × J))
    (hWK : ∀ kv ∈ m, WellKeyed kv) :
    ∀ t ∈ timelineOf env m, ∀ e ∈ t.evidence, keyPresent m e = true := by
  intro t ht e he
  unfold timelineOf at ht
  rw [mem_sortByDesc] at ht
  obtain ⟨v, hv, htv⟩ := List.mem_flatMap.mp ht
  clear ht
  dsimp only at htv
  split_ifs at htv <;>
    first
      | (rw [List.mem_singleton] at htv; subst htv;
         simp only [List.mem_singleton] at he; subst he;
         apply key_present_typed m hWK v hv;
         simp_all only [Bool.and_eq_true])
      | cases htv

theorem encountersOf_src (m : List (String × J)) :
    ∀ e ∈ encountersOf m,
      e ∈ valuesOf m ∧ jIsStr (jGet e "resourceType") "Encounter" = true := by
  intro e he
  obtain ⟨h1, h2⟩ := List.mem_filter.mp he
  simp only [Bool.and_eq_true] at h2
  exact ⟨h1, h2.1⟩

theorem utilizationOf_evidence (env : Env) (m : List (String × J))
    (hWK : ∀ kv ∈ m, WellKeyed kv) :
    ∀ e ∈ (utilizationOf env m).evidence, keyPresent m e = true := by
  intro e he
  unfold utilizationOf at he
  dsimp only at he
  obtain ⟨x, hx, hxe⟩ := List.mem_map.mp he
  subst hxe
  obtain ⟨hx1, _⟩ := List.mem_filter.mp (List.mem_of_mem_take hx)
  obtain ⟨hv, hT⟩ := encountersOf_src m x hx1
  exact key_present_typed m hWK x hv "Encounter" hT

theorem abnormalLabsOf_src (env : Env) (m : List (String × J)) :
    ∀ r ∈ abnormalLabsOf env m, ∃ obs ∈ valuesOf m,
      jIsStr (jGet obs "resourceType") "Observation" = true ∧ r.id = evidId obs := by
  intro r hr
  unfold abnormalLabsOf at hr
  rw [mem_sortByDesc] at hr
  obtain ⟨hr1, _⟩ := List.mem_filter.mp hr
  obtain ⟨obs, hobs, hmap⟩ := List.mem_map.mp hr1
  obtain ⟨hv, hguard⟩ := List.mem_filter.mp hobs
  simp only [Bool.and_eq_true] at hguard
  subst hmap
  exact ⟨obs, hv, hguard.1.1, rfl⟩

theorem abnormalVitalsOf_src (env : Env) (m : List (String × J)) :
    ∀ r ∈ abnormalVitalsOf env m, ∃ obs ∈ valuesOf m,
      jIsStr (jGet obs "resourceType") "Observation" = true ∧ r.id = evidId obs := by
  intro r hr
  unfold abnormalVitalsOf at hr
  rw [mem_sortByDesc] at hr
  obtain ⟨hr1, _⟩ := List.mem_filter.mp hr
  obtain ⟨obs, hobs, hmap⟩ := List.mem_map.mp hr1
  obtain ⟨hv, hguard⟩ := List.mem_filter.mp hobs
  simp only [Bool.and_eq_true] at hguard
  subst hmap
  exact ⟨obs, hv, hguard.1.1, rfl⟩

theorem nonFinalObservationsOf_src (env : Env) (m : List (String × J)) :
    ∀ v ∈ nonFinalObservationsOf env m,
      v ∈ valuesOf m ∧ jIsStr (jGet v "resourceType") "Observation" = true := by
  intro v hvw
  obtain ⟨h1, _⟩ := List.mem_filter.mp hvw
  obtain ⟨h2, hguard⟩ := List.mem_filter.mp h1
  simp only [Bool.and_eq_true] at hguard
  exact ⟨h2, hguard.1.1⟩

theorem severeAllergiesOf_src (env : Env) (m : List (String × J)) :
    ∀ r ∈ severeAllergiesOf env m, ∃ a ∈ valuesOf m,
      jIsStr (jGet a "resourceType") "AllergyIntolerance" = true ∧ r.id = evidId a := by
  intro r hr
  unfold severeAllergiesOf at hr
  dsimp only at hr
  rw [mem_sortByDesc] at hr
  obtain ⟨a, ha, hmap⟩ := List.mem_map.mp hr
  obtain ⟨ha1, _⟩ := List.mem_filter.mp ha
  obtain ⟨hv, hguard⟩ := List.mem_filter.mp ha1
  simp only [Bool.and_eq_true] at hguard
  subst hmap
  exact ⟨a, hv, hguard.1, rfl⟩

theorem chronicProblemsOf_src (env : Env) (m : List (String × J)) :
    ∀ r ∈ chronicProblemsOf env m, ∃ c ∈ valuesOf m,
      jIsStr (jGet c "resourceType") "Condition" = true ∧ r.id = evidId c := by
  intro r hr
  unfold chronicProblemsOf at hr
  dsimp only at hr
  rw [mem_sortByDesc] at hr
  obtain ⟨c, hc, hmap⟩ := List.mem_map.mp hr
  obtain ⟨hv, hguard⟩ := List.mem_filter.mp hc
  simp only [Bool.and_eq_true] at hguard
  subst hmap
  exact ⟨c, hv, hguard.1.1, rfl⟩

theorem chronicMedsOf_src (env : Env) (m : List (String × J)) :
    ∀ r ∈ chronicMedsOf env m, ∃ v ∈ valuesOf m,
      r.id = evidId v ∧ r.rtype = evidType v := by
  intro r hr
  unfold chronicMedsOf at hr
  dsimp only at hr
  rw [mem_sortByDesc] at hr
  obtain ⟨v, hvm, hmap⟩ := List.mem_map.mp hr
  obtain ⟨hv1, _⟩ := List.mem_filter.mp hvm
  obtain ⟨hv, _⟩ := List.mem_filter.mp hv1
  subst hmap
  exact ⟨v, hv, rfl, rfl⟩

theorem recentAcuteEncountersOf_src (env : Env) (m : List (String × J)) :
    ∀ r ∈ recentAcuteEncountersOf env m, ∃ e ∈ valuesOf m,
      jIsStr (jGet e "resourceType") "Encounter" = true ∧ r.id = evidId e := by
  intro r hr
  unfold recentAcuteEncountersOf at hr
  dsimp only at hr
  rw [mem_sortByDesc] at hr
  obtain ⟨hr1, _⟩ := List.mem_filter.mp hr
  obtain ⟨hr2, _⟩ := List.mem_filter.mp hr1
  obtain ⟨x, hx, hmap⟩ := List.mem_map.mp hr2
  obtain ⟨hv, hT⟩ := encountersOf_src m x hx
  subst hmap
  exact ⟨x, hv, hT, rfl⟩

theorem mkAbnormalLabsBanner_evidence (rows : List AbnRow) :
    ∀ e ∈ (mkAbnormalLabsBanner rows).evidence,
      ∃ top ∈ rows, e = { resourceType := "Observation", id := top.id } := by
  cases rows with
  | nil => intro e he; cases he
  | cons top rest =>
      intro e he
      simp only [mkAbnormalLabsBanner, List.mem_singleton] at he
      exact ⟨top, List.mem_cons_self top rest, he⟩

theorem mkAbnormalVitalsBanner_evidence (rows : List AbnRow) :
    ∀ e ∈ (mkAbnormalVitalsBanner rows).evidence,
      ∃ top ∈ rows, e = { resourceType := "Observation", id := top.id } := by
  cases rows with
  | nil => intro e he; cases he
  | cons top rest =>
      intro e he
      simp only [mkAbnormalVitalsBanner, List.mem_singleton] at he
      exact ⟨top, List.mem_cons_self top rest, he⟩

theorem mkSevereAllergiesBanner_evidence (rows : List SimpleRow) :
    ∀ e ∈ (mkSevereAllergiesBanner rows).evidence,
      ∃ top ∈ rows, e = { resourceType := "AllergyIntolerance", id := top.id } := by
  cases rows with
  | nil => intro e he; cases he
  | cons top rest =>
      intro e he
      simp only [mkSevereAllergiesBanner, List.mem_singleton] at he
      exact ⟨top, List.mem_cons_self top rest, he⟩

theorem mkAcuteBanner_evidence (rows : List AcuteRow) :
    ∀ e ∈ (mkAcuteBanner rows).evidence,
      ∃ top ∈ rows, e = { resourceType := "Encounter", id := top.id } := by
  cases rows with
  | nil => intro e he; cases he
  | cons top rest =>
      intro e he
      simp only [mkAcuteBanner, List.mem_singleton] at he
      exact ⟨top, List.mem_cons_self top rest, he⟩

theorem mkNonFinalBanner_evidence (env : Env) (rows : List J) :
    ∀ e ∈ (mkNonFinalBanner env rows).evidence,
      ∃ top ∈ rows, e = { resourceType := "Observation", id := evidId top } := by
  cases rows with
  | nil => intro e he; cases he
  | cons top rest =>
      intro e he
      simp only [mkNonFinalBanner, List.mem_singleton] at he
      exact ⟨top, List.mem_cons_self top rest, he⟩

theorem mkChronicBanner_evidence (probs : List SimpleRow) (meds : List ChronicMedRow) :
    ∀ e ∈ (mkChronicBanner probs meds).evidence,
      (∃ p ∈ probs, e = { resourceType := "Condition", id := p.id }) ∨
      (∃ mm ∈ meds, e = { resourceType := mm.rtype, id := mm.id }) := by
  intro e he
  simp only [mkChronicBanner] at he
  have hmem := List.mem_of_mem_take he
  rcases List.mem_append.mp hmem with h | h
  · obtain ⟨p, hp, hpe⟩ := List.mem_map.mp h
    exact Or.inl ⟨p, List.mem_of_mem_take hp, hpe.symm⟩
  · obtain ⟨mm, hm, hme⟩ := List.mem_map.mp h
    exact Or.inr ⟨mm, List.mem_of_mem_take hm, hme.symm⟩

theorem bannersPreOf_evidence (env : Env) (m : List (String × J))
    (hWK : ∀ kv ∈ m, WellKeyed kv) :
    ∀ b ∈ bannersPreOf env m, ∀ e ∈ b.evidence, keyPresent m e = true := by
  intro b hb e he
  rw [bannersPreOf_characterization] at hb
  rcases List.mem_append.mp hb with hb | hbC
  · rcases List.mem_append.mp hb with hb | hbN
    · rcases List.mem_append.mp hb with hb | hbA
      · rcases List.mem_append.mp hb with hb | hbS
        · rcases List.mem_append.mp hb with hbL | hbV
          · obtain ⟨_, hbx⟩ := mem_ite_singleton hbL
            subst hbx
            obtain ⟨top, htop, hetop⟩ := mkAbnormalLabsBanner_evidence _ e he
            obtain ⟨obs, hobs, hT, hid⟩ := abnormalLabsOf_src env m top htop
            subst hetop
            rw [hid]
            exact key_present_typed m hWK obs hobs "Observation" hT
          · obtain ⟨_, hbx⟩ := mem_ite_singleton hbV
            subst hbx
            obtain ⟨top, htop, hetop⟩ := mkAbnormalVitalsBanner_evidence _ e he
            obtain ⟨obs, hobs, hT, hid⟩ := abnormalVitalsOf_src env m top htop
            subst hetop
            rw [hid]
            exact key_present_typed m hWK obs hobs "Observation" hT
        · obtain ⟨_, hbx⟩ := mem_ite_singleton hbS
          subst hbx
          obtain ⟨top, htop, hetop⟩ := mkSevereAllergiesBanner_evidence _ e he
          obtain ⟨a, ha, hT, hid⟩ := severeAllergiesOf_src env m top htop
          subst hetop
          rw [hid]
          exact key_present_typed m hWK a ha "AllergyIntolerance" hT
      · obtain ⟨_, hbx⟩ := mem_ite_singleton hbA
        subst hbx
        obtain ⟨top, htop, hetop⟩ := mkAcuteBanner_evidence _ e he
        obtain ⟨enc, henc, hT, hid⟩ := recentAcuteEncountersOf_src env m top htop
        subst hetop
        rw [hid]
        exact key_present_typed m hWK enc henc "Encounter" hT
    · obtain ⟨_, hbx⟩ := mem_ite_singleton hbN
      subst hbx
      obtain ⟨top, htop, hetop⟩ := mkNonFinalBanner_evidence env _ e he
      obtain ⟨hv, hT⟩ := nonFinalObservationsOf_src env m top htop
      subst hetop
      exact key_present_typed m hWK top hv "Observation" hT
  · obtain ⟨_, hbx⟩ := mem_ite_singleton hbC
    subst hbx
    rcases mkChronicBanner_evidence _ _ e he with ⟨p, hp, hpe⟩ | ⟨mm, hm, hme⟩
    · obtain ⟨c, hc, hT, hid⟩ := chronicProblemsOf_src env m p hp
      subst hpe
      rw [hid]
      exact key_present_typed m hWK c hc "Condition" hT
    · obtain ⟨v, hv, hid, hrt⟩ := chronicMedsOf_src env m mm hm
      subst hme
      rw [hid, hrt]
      exact key_present_self m hWK v hv

theorem problemsOf_evidence (env : Env) (m : List (String × J))
    (hWK : ∀ kv ∈ m, WellKeyed kv) :
    ∀ p ∈ problemsOf env m, ∀ e ∈ p.evidence, keyPresent m e = true := by
  intro p hp e he
  obtain ⟨q, hq, hqe⟩ := List.mem_map.mp hp
  subst hqe
  exact problemsPre_evidence env m hWK q hq e he

theorem allergiesOf_evidence (env : Env) (m : List (String × J))
    (hWK : ∀ kv ∈ m, WellKeyed kv) :
    ∀ p ∈ allergiesOf env m, ∀ e ∈ p.evidence, keyPresent m e = true := by
  intro p hp e he
  obtain ⟨q, hq, hqe⟩ := List.mem_map.mp hp
  subst hqe
  exact allergiesPre_evidence env m hWK q hq e he

theorem labsOf_evidence (env : Env) (m : List (String × J))
    (hWK : ∀ kv ∈ m, WellKeyed kv) (hSF : slashFreeTypes m = true) :
    ∀ p ∈ labsOf env m, ∀ e ∈ p.evidence, keyPresent m e = true := by
  intro p hp e he
  obtain ⟨q, hq, hqe⟩ := List.mem_map.mp hp
  subst hqe
  exact labsPre_evidence env m hWK hSF q hq e he

/-- Claim C8: with `includeResources` true, every `(recordType, id)` pair
appearing in the evidence list of any category row, the utilization block, any
timeline event, or any banner of the returned summary is bound under the key
`"{recordType}/{id}"` in the returned record map — provided no record's
`resourceType` string contains a `/` (FHIR record types never do, but the code
does not enforce it; see the slash counterexample). -/
theorem evidence_completeness (env : Env) (bundle : J)
    (hSF : slashFreeTypes (resourcesOf env bundle) = true) :
    evidenceComplete (buildInsightsCore env bundle true) = true := by
  have hWK := resourcesOf_wellKeyed env bundle
  rw [evidenceComplete, List.all_eq_true]
  intro e he
  have hres : (buildInsightsCore env bundle true).resources =
      some (resourcesOf env bundle) := rfl
  rw [hres]
  rw [allEvidence] at he
  have hsnap : (buildInsightsCore env bundle true).snapshot =
      { problems := problemsOf env (resourcesOf env bundle),
        procedures := proceduresOf env (resourcesOf env bundle),
        meds := medsOf env (resourcesOf env bundle),
        immunizations := immunizationsOf env (resourcesOf env bundle),
        allergies := allergiesOf env (resourcesOf env bundle),
        socialHistory := socialHistoryOf env (resourcesOf env bundle),
        mentalStatus := mentalStatusOf env (resourcesOf env bundle),
        vitals := vitalsOf env (resourcesOf env bundle),
        labs := labsOf env (resourcesOf env bundle),
        utilization := utilizationOf env (resourcesOf env bundle) } := rfl
  have htl : (buildInsightsCore env bundle true).timeline =
      timelineOf env (resourcesOf env bundle) := rfl
  rw [hsnap, htl, buildInsightsCore_banners] at he
  dsimp only [Option.getD]
  rcases List.mem_append.mp he with he | heB
  rcases List.mem_append.mp he with he | heT
  rcases List.mem_append.mp he with he | heU
  rcases List.mem_append.mp he with he | heL
  rcases List.mem_append.mp he with he | heVi
  rcases List.mem_append.mp he with he | heMe
  rcases List.mem_append.mp he with he | heSo
  rcases List.mem_append.mp he with he | heAl
  rcases List.mem_append.mp he with he | heIm
  rcases List.mem_append.mp he with heP | heMd
  · rcases List.mem_append.mp heP with hePb | hePr
    · obtain ⟨r, hr, hre⟩ := List.mem_flatMap.mp hePb
      exact problemsOf_evidence env _ hWK r hr e hre
    · obtain ⟨r, hr, hre⟩ := List.mem_flatMap.mp hePr
      exact proceduresOf_evidence env _ hWK r hr e hre
  · obtain ⟨r, hr, hre⟩ := List.mem_flatMap.mp heMd
    exact medsOf_evidence env _ hWK r hr e hre
  · obtain ⟨r, hr, hre⟩ := List.mem_flatMap.mp heIm
    exact immunizationsOf_evidence env _ hWK r hr e hre
  · obtain ⟨r, hr, hre⟩ := List.mem_flatMap.mp heAl
    exact allergiesOf_evidence env _ hWK r hr e hre
  · obtain ⟨r, hr, hre⟩ := List.mem_flatMap.mp heSo
    exact socialHistoryOf_evidence env _ hWK r hr e hre
  · obtain ⟨r, hr, hre⟩ := List.mem_flatMap.mp heMe
    exact mentalStatusOf_evidence env _ hWK r hr e hre
  · obtain ⟨r, hr, hre⟩ := List.mem_flatMap.mp heVi
    exact vitalsOf_evidence env _ hWK r hr e hre
  · obtain ⟨r, hr, hre⟩ := List.mem_flatMap.mp heL
    exact labsOf_evidence env _ hWK hSF r hr e hre
  · exact utilizationOf_evidence env _ hWK e heU
  · obtain ⟨r, hr, hre⟩ := List.mem_flatMap.mp heT
    exact timelineOf_evidence env _ hWK r hr e hre
  · obtain ⟨b, hb, hbe⟩ := List.mem_flatMap.mp heB
    exact bannersPreOf_evidence env _ hWK b hb e hbe

/-- A bundle whose second record carries the slash-bearing `resourceType`
`"Observation/y"` with id `"z"`, keyed `"Observation/y/z"` in the record map;
the diagnostic report's result reference `"Observation/y/z"` then resolves to
it, but the emitted evidence pair `(Observation, z)` matches no map key. -/
def slashBundle : J :=
  .jobj [("resourceType", .jstr "Bundle"),
         ("entry", .jarr [
            .jobj [("resource", .jobj [
               ("resourceType", .jstr "DiagnosticReport"),
               ("id", .jstr "d1"),
               ("result", .jarr [.jobj [("reference", .jstr "Observation/y/z")]])])],
            .jobj [("resource", .jobj [
               ("resourceType", .jstr "Observation/y"),
               ("id", .jstr "z"),
               ("valueString", .jstr "5")])]])]

/-- Counterexample to the unconditional C8 claim: on `slashBundle` the summary
built with `includeResources := true` carries the lab-row evidence pair
`(Observation, z)` although `"Observation/z"` is not a key of the returned
record map, so evidence completeness fails for this bundle. -/
theorem evidence_slash_counterexample :
    evidenceComplete (buildInsightsCore envNone slashBundle true) = false ∧
    (∃ r ∈ (buildInsightsCore envNone slashBundle true).snapshot.labs,
      { resourceType := "Observation", id := "z", path := none } ∈ r.evidence) ∧
    keyPresent ((buildInsightsCore envNone slashBundle true).resources.getD [])
      { resourceType := "Observation", id := "z", path := none } = false := by
  refine ⟨rfl,
    ⟨{ label := "Diagnostic report", latest := "5", flag := none,
       evidence := [{ resourceType := "DiagnosticReport", id := "d1" },
                    { resourceType := "Observation", id := "z" }] }, ?_, ?_⟩, rfl⟩
  · show _ ∈ labsOf envNone (resourcesOf envNone slashBundle)
    rw [show labsOf envNone (resourcesOf envNone slashBundle) =
      [{ label := "Diagnostic report", latest := "5", flag := none,
         evidence := [{ resourceType := "DiagnosticReport", id := "d1" },
                      { resourceType := "Observation", id := "z" }] }] from rfl]
    exact List.mem_singleton.mpr rfl
  · exact List.mem_cons_of_mem _ (List.mem_singleton.mpr rfl)

/-- A small slash-free bundle: one condition record. -/
def cleanBundle : J :=
  .jobj [("resourceType", .jstr "Bundle"),
         ("entry", .jarr [
            .jobj [("resource", .jobj [
               ("resourceType", .jstr "Condition"),
               ("id", .jstr "c1"),
               ("code", .jobj [("text", .jstr "Asthma")])])]])]

/-- The amended C8 theorem applied at a concrete slash-free bundle. -/
theorem evidence_completeness_witness :
    slashFreeTypes (resourcesOf envNone cleanBundle) = true ∧
    evidenceComplete (buildInsightsCore envNone cleanBundle true) = true :=
  ⟨rfl, evidence_completeness envNone cleanBundle rfl⟩

end Insights













